import Mathlib

/-!
# PhysioLens analytics core — shallow embedding and verification

This file embeds the statistical core of the PhysioLens backend
(`Backend/app/services/analytics/{baselines,dips,stability,pareto_calculation,evidence}.py`)
as executable Lean definitions and proves properties of them.

Modelling conventions:
* Python floats are modelled as rationals (`ℚ`); the source performs exact-looking
  arithmetic (sums, differences, divisions) whose rounding behaviour no property
  here depends on.
* `datetime.date` is modelled as `ℤ` (its ordinal number): dates form a linear
  order and `d - timedelta(days=k)` is `d - k`.
* Python `None` is `Option.none`; a Python function that can raise `ValueError`
  is modelled in `Except String`.
* The square root used for the population standard deviation leaves `ℚ`, so the
  baseline computation is parametrised by an abstract `sqrtQ : ℚ → ℚ`.  No
  property proved here depends on the values of `sqrtQ`.
-/

namespace PhysioLens

/-- A calendar day, identified with its ordinal number (`datetime.date.toordinal`). -/
abbrev Day := ℤ

/-- `app/domain/daily_record.py : DailyRecord` — one day of observations.
The analytics code reads exactly these five metric fields; the `sources`
provenance map is never read by the analytics core and is omitted. -/
structure DailyRecord where
  date : Day
  recovery_value : Option ℚ := none
  sleep_duration : Option ℚ := none
  sleep_consistency : Option ℚ := none
  excercise_data_point : Option ℚ := none
  nutrition_data_point : Option ℚ := none
deriving DecidableEq, Repr

/-- `baselines.py : BaselineStats` — mean/std over the non-missing observations
of a window, with `n` the number of observations used. -/
structure BaselineStats where
  mean : Option ℚ
  std : Option ℚ
  n : ℕ
deriving DecidableEq, Repr

/-- `baselines.py : _mean` — arithmetic mean.  (On `[]` the source would raise
`ZeroDivisionError`; its caller guards `len(xs) == 0`, and `ℚ` division by zero
returning `0` is never reached under that guard.) -/
def meanOf (xs : List ℚ) : ℚ := xs.sum / xs.length

/-- The population variance `sum((x - mu)^2) / len(xs)` computed inside
`baselines.py : _std`. -/
def varOf (xs : List ℚ) (mu : ℚ) : ℚ := (xs.map (fun x => (x - mu) ^ 2)).sum / xs.length

/-- `baselines.py : _std` — population standard deviation, abstract in the
square root `sqrtQ` (see the module docstring). -/
def stdOf (sqrtQ : ℚ → ℚ) (xs : List ℚ) (mu : ℚ) : ℚ :=
  if xs.length = 0 then 0 else sqrtQ (varOf xs mu)

/-- `baselines.py : _get_metric_value` — explicit metric-key dispatch;
an unknown key raises `ValueError`. -/
def get_metric_value (r : DailyRecord) (key : String) : Except String (Option ℚ) :=
  if key = "recovery_value" then Except.ok r.recovery_value
  else if key = "sleep_duration" then Except.ok r.sleep_duration
  else if key = "sleep_consistency" then Except.ok r.sleep_consistency
  else if key = "excercise_data_point" then Except.ok r.excercise_data_point
  else if key = "nutrition_data_point" then Except.ok r.nutrition_data_point
  else Except.error ("Unknown metric key: " ++ key)

/-- The metric keys `_get_metric_value` accepts. -/
def validMetricKeys : List String :=
  ["recovery_value", "sleep_duration", "sleep_consistency",
   "excercise_data_point", "nutrition_data_point"]

/-- The window selection of `baselines.py : compute_individual_baselines`:
`records[-days_window:] if len(records) >= days_window else records`. -/
def baselineWindow (records : List DailyRecord) (days_window : ℤ) : List DailyRecord :=
  if days_window ≤ (records.length : ℤ) then
    records.drop (records.length - days_window.toNat)
  else records

/-- The body of `compute_individual_baselines` after window selection: collect
the metric values over the window (raising on an unknown key), drop the missing
ones, and return the stats — `n = 0` yields an explicit absent baseline. -/
def statsFromWindow (sqrtQ : ℚ → ℚ) (window : List DailyRecord) (metric_key : String) :
    Except String BaselineStats :=
  match window.mapM (fun r => get_metric_value r metric_key) with
  | Except.error e => Except.error e
  | Except.ok vals =>
      let xs := vals.filterMap id
      if xs.length = 0 then Except.ok { mean := none, std := none, n := 0 }
      else
        let mu := meanOf xs
        Except.ok { mean := some mu, std := some (stdOf sqrtQ xs mu), n := xs.length }

/-- `baselines.py : compute_individual_baselines` — baseline stats for one
metric over the last `days_window` records; `days_window <= 0` raises. -/
def compute_individual_baselines (sqrtQ : ℚ → ℚ) (records : List DailyRecord)
    (metric_key : String) (days_window : ℤ) : Except String BaselineStats :=
  if days_window ≤ 0 then Except.error ("days_window must be > 0")
  else statsFromWindow sqrtQ (baselineWindow records days_window) metric_key

/-- `baselines.py : z_score` — `None` if the baseline is absent; if `std == 0`,
`0.0` exactly when the value equals the mean, else `None`; otherwise
`(value - mean) / std`. -/
def z_score (value : ℚ) (b : BaselineStats) : Option ℚ :=
  match b.mean, b.std with
  | some m, some s =>
      if b.n = 0 then none
      else if s = 0 then (if value = m then some 0 else none)
      else some ((value - m) / s)
  | _, _ => none

/-- Stable insertion of `x` into `l`: `x` goes in front of the first element `y`
with `le x y`.  Used to model Python's stable `sorted`. -/
def insertLe (le : α → α → Bool) (x : α) : List α → List α
  | [] => [x]
  | y :: ys => if le x y then x :: y :: ys else y :: insertLe le x ys

/-- Stable insertion sort, modelling Python's stable `sorted`. -/
def sortLe (le : α → α → Bool) : List α → List α
  | [] => []
  | x :: xs => insertLe le x (sortLe le xs)

/-- `app/domain/config.py + app/domain/constants.py : AnalysisAssumptions` —
the central analysis configuration (only the fields the analytics core reads).
The source field `max_noise_ratio` is embedded as `max_noise_share`. -/
structure AnalysisAssumptions where
  min_history_days : ℕ := 30
  baseline_days_window : ℕ := 14
  max_lag_days : ℕ := 3
  min_observations : ℕ := 10
  min_consistent_windows : ℕ := 3
  min_effect_size : ℚ := 15 / 100
  max_noise_share : ℚ := 4 / 10
  max_explanatory_factors : ℕ := 3
deriving DecidableEq, Repr

/-- `dips.py : DipEvent`. -/
structure DipEvent where
  date : Day
  recovery_value : ℚ
  baseline_mean : ℚ
  z : ℚ
  magnitude : ℚ
  kind : String
deriving DecidableEq, Repr

/-- `dips.py : DipDetectionResult`. -/
structure DipDetectionResult where
  large : List DipEvent
  persistent : List DipEvent
  all : List DipEvent
deriving DecidableEq, Repr

/-- `dips.py : DipThresholds`. -/
structure DipThresholds where
  large_dip_z : ℚ := -(5 / 4)
  persistent_dip_z : ℚ := -(3 / 4)
  persistent_days : ℕ := 2
deriving DecidableEq, Repr

/-- The per-day recovery z-scores computed at the top of `detect_recovery_dips`:
`None` for a missing recovery value, otherwise `z_score` against the baseline. -/
def perDayZ (records : List DailyRecord) (b : BaselineStats) :
    List (DailyRecord × Option ℚ) :=
  records.map (fun r =>
    match r.recovery_value with
    | none => (r, none)
    | some v => (r, z_score v b))

/-- Build a `DipEvent` for a scored day.  The detector's gate guarantees
`b.mean` is present and both passes only build events for days whose
`recovery_value` is present, so the `getD 0` defaults are never exercised. -/
def mkDipEvent (b : BaselineStats) (kind : String) (r : DailyRecord) (z : ℚ) : DipEvent :=
  { date := r.date
    recovery_value := r.recovery_value.getD 0
    baseline_mean := b.mean.getD 0
    z := z
    magnitude := b.mean.getD 0 - r.recovery_value.getD 0
    kind := kind }

/-- Pass 1 of `detect_recovery_dips`: single-day large dips
(`z <= thresholds.large_dip_z`). -/
def largeDipCandidates (records : List DailyRecord) (b : BaselineStats)
    (th : DipThresholds) : List DipEvent :=
  (perDayZ records b).filterMap (fun rz =>
    match rz.1.recovery_value, rz.2 with
    | some _, some z =>
        if z ≤ th.large_dip_z then some (mkDipEvent b ("large") rz.1 z) else none
    | _, _ => none)

/-- Whether a scored day extends a persistent run.  The source's loop breaks the
run both on a missing/unscorable day and on a day above the threshold, with
identical flush behaviour, so one qualification predicate captures both. -/
def persistentQualifies (th : DipThresholds) (rz : DailyRecord × Option ℚ) : Bool :=
  match rz.1.recovery_value, rz.2 with
  | some _, some z => z ≤ th.persistent_dip_z
  | _, _ => false

/-- The persistent-dip event built for a qualifying day. -/
def persistentEvent (b : BaselineStats) (rz : DailyRecord × Option ℚ) : DipEvent :=
  mkDipEvent b ("persistent") rz.1 (rz.2.getD 0)

/-- Emit a finished run if it is long enough (`len(run) >= persistent_days`). -/
def runFlush (k : ℕ) (run : List β) : List β := if k ≤ run.length then run else []

/-- One step of the persistent-run loop: a qualifying day extends the run, any
other day flushes and resets it.  State is `(run, emitted)`. -/
def runStep (q : α → Bool) (f : α → β) (k : ℕ) (s : List β × List β) (x : α) :
    List β × List β :=
  if q x then (s.1 ++ [f x], s.2) else ([], s.2 ++ runFlush k s.1)

/-- The persistent-run scan of `detect_recovery_dips` (pass 2): fold the day
sequence and flush the trailing run at the end. -/
def runScan (q : α → Bool) (f : α → β) (k : ℕ) (l : List α) : List β :=
  let s := l.foldl (runStep q f k) ([], [])
  s.2 ++ runFlush k s.1

/-- Recursive reformulation of the run scan (same machine, run passed along),
used to reason about `runScan` by induction. -/
def runScanGo (q : α → Bool) (f : α → β) (k : ℕ) : List β → List α → List β
  | run, [] => runFlush k run
  | run, x :: xs =>
      if q x then runScanGo q f k (run ++ [f x]) xs
      else runFlush k run ++ runScanGo q f k [] xs

/-- Modelled from the spec's words ("scan maintaining a run of consecutive days
…; a missing/unscorable day breaks the run; on run end, if run length ≥
persistent_days, emit every day in the run"): the maximal blocks of consecutive
`q`-satisfying elements, for comparison with the implementation's fold. -/
def maximalRuns (q : α → Bool) : List α → List (List α)
  | [] => []
  | x :: xs =>
      if q x then
        ((x :: xs).takeWhile q) :: maximalRuns q ((x :: xs).dropWhile q)
      else maximalRuns q xs
termination_by l => l.length
decreasing_by
  · rename_i hq
    simp only [List.dropWhile_cons, hq, if_true, List.length_cons]
    exact Nat.lt_succ_of_le ((List.dropWhile_sublist q).length_le)
  · simp

/-- Pass 2 of `detect_recovery_dips`: every day of each qualifying persistent
run, in scan order. -/
def persistentDipCandidates (records : List DailyRecord) (b : BaselineStats)
    (th : DipThresholds) : List DipEvent :=
  runScan (persistentQualifies th) (persistentEvent b) th.persistent_days
    (perDayZ records b)

/-- First-match association-list lookup, modelling `dict.get` on the
insertion-ordered `by_date` dictionary. -/
def lookupDate (k : Day) : List (Day × DipEvent) → Option DipEvent
  | [] => none
  | kv :: rest => if kv.1 = k then some kv.2 else lookupDate k rest

/-- One dictionary update of the dedup loop: a new date is appended; on a
collision, `large` replaces `persistent` and nothing else changes. -/
def insertDip (m : List (Day × DipEvent)) (d : DipEvent) : List (Day × DipEvent) :=
  match lookupDate d.date m with
  | none => m ++ [(d.date, d)]
  | some existing =>
      if existing.kind = "persistent" ∧ d.kind = "large" then
        m.map (fun kv => if kv.1 = d.date then (d.date, d) else kv)
      else m

/-- The `by_date` dictionary of `detect_recovery_dips`. -/
def dedupByDate (dips : List DipEvent) : List (Day × DipEvent) :=
  dips.foldl insertDip []

/-- The output stage of `detect_recovery_dips`: dedup the combined candidate
list by date (large preference) and return the events in chronological order
(`[by_date[k] for k in sorted(by_date.keys())]`). -/
def dipOutput (dips : List DipEvent) : List DipEvent :=
  let byDate := dedupByDate dips
  (sortLe (fun a b => decide (a ≤ b)) (byDate.map Prod.fst)).filterMap
    (fun k => lookupDate k byDate)

/-- `dips.py : detect_recovery_dips` — gates, the two passes, dedup by date
with large preference, and chronological output. -/
def detect_recovery_dips (records : List DailyRecord) (recovery_baseline : BaselineStats)
    (assumptions : AnalysisAssumptions) (thresholds : DipThresholds) : List DipEvent :=
  if records.length < assumptions.min_history_days then []
  else
    match recovery_baseline.mean, recovery_baseline.std with
    | some _, some _ =>
        if recovery_baseline.n < assumptions.min_observations then []
        else
          dipOutput (largeDipCandidates records recovery_baseline thresholds ++
            persistentDipCandidates records recovery_baseline thresholds)
    | _, _ => []

/-- A concrete input with one large dip on day 1: recovery
`[70, 100, 100, 100]` against a baseline of mean 100, std 10. -/
def exampleLargeRecords : List DailyRecord :=
  [{ date := 1, recovery_value := some 70 },
   { date := 2, recovery_value := some 100 },
   { date := 3, recovery_value := some 100 },
   { date := 4, recovery_value := some 100 }]

/-- The spec's worked example for persistent dips: recovery
`[92, None, 92, 92]` on four consecutive days. -/
def exampleDipRecords : List DailyRecord :=
  [{ date := 1, recovery_value := some 92 },
   { date := 2 },
   { date := 3, recovery_value := some 92 },
   { date := 4, recovery_value := some 92 }]

/-- The example baseline: mean 100, std 10 (with enough observations to pass
the detector's gate). -/
def exampleDipBaseline : BaselineStats := { mean := some 100, std := some 10, n := 10 }

/-- Assumptions for the example: history gate low enough for four records,
all other fields at their defaults. -/
def exampleDipAssumptions : AnalysisAssumptions := { min_history_days := 4 }

/-- The persistent dip the example detector reports on day `d`:
`z = (92 - 100)/10 = -0.8`, magnitude `8`. -/
def exampleDip (d : Day) : DipEvent :=
  { date := d, recovery_value := 92, baseline_mean := 100, z := -(4 / 5)
    magnitude := 8, kind := "persistent" }

/-- `stability.py : StabilityResult` — the verdict plus the meta `reason` code
(the purely diagnostic numeric meta entries are not modelled; no property here
consults them). -/
structure StabilityResult where
  stable : Bool
  reason : Option String
deriving DecidableEq, Repr

/-- `stability.py : is_stable_recovery` — history/baseline/observation gates,
then `stable = stable_by_variance and stable_by_dips` with
`cv = |std/mean|` guarded by `|mean| < 1e-9`, `cv_threshold = 0.08` and
`allowed_dips = 0`. -/
def is_stable_recovery (records : List DailyRecord) (recovery_baseline : BaselineStats)
    (dip_count : ℤ) (assumptions : AnalysisAssumptions) : StabilityResult :=
  if records.length < assumptions.min_history_days then
    { stable := false, reason := some "insufficient_history" }
  else if recovery_baseline.mean = none ∨ recovery_baseline.std = none ∨
      recovery_baseline.n = 0 then
    { stable := false, reason := some "missing_recovery_baseline" }
  else if recovery_baseline.n < assumptions.min_observations then
    { stable := false, reason := some "insufficient_recovery_observations" }
  else
    let mu := recovery_baseline.mean.getD 0
    let sd := recovery_baseline.std.getD 0
    let cv : Option ℚ := if |mu| < 1 / 1000000000 then none else some |sd / mu|
    let cv_threshold : ℚ := 8 / 100
    let allowed_dips : ℤ := 0
    let stable_by_variance : Bool :=
      match cv with
      | some c => decide (c ≤ cv_threshold)
      | none => decide (sd = 0)
    let stable_by_dips : Bool := decide (dip_count ≤ allowed_dips)
    { stable := stable_by_variance && stable_by_dips, reason := none }

/-- `pareto_calculation.py : FactorConfig`. -/
structure FactorConfig where
  key : String
  fields : List String
deriving DecidableEq, Repr

/-- `pareto_calculation.py : DEFAULT_DRIVERS`. -/
def DEFAULT_DRIVERS : List FactorConfig :=
  [{ key := "sleep", fields := ["sleep_duration", "sleep_consistency"] },
   { key := "exercise", fields := ["excercise_data_point"] },
   { key := "nutrition", fields := ["nutrition_data_point"] }]

/-- `pareto_calculation.py : AttributionThresholds`. -/
structure AttributionThresholds where
  abnormal_abs_z : ℚ := 5 / 4
deriving DecidableEq, Repr

/-- The `baselines` dictionary parameter (`dict.get` as a function). -/
abbrev Baselines := String → Option BaselineStats

/-- `pareto_calculation.py : _get_field_value` — `getattr(record, field, None)`
over the record's metric fields (an unknown field yields `None`). -/
def get_field_value (r : DailyRecord) (field : String) : Option ℚ :=
  if field = "recovery_value" then r.recovery_value
  else if field = "sleep_duration" then r.sleep_duration
  else if field = "sleep_consistency" then r.sleep_consistency
  else if field = "excercise_data_point" then r.excercise_data_point
  else if field = "nutrition_data_point" then r.nutrition_data_point
  else none

/-- One field of the `_is_factor_abnormal` scan: skip a field with no
baseline, no value or no z; keep the signed z with the strictly larger `|z|`. -/
def bestFieldZStep (r : DailyRecord) (baselines : Baselines)
    (best : Option ℚ × ℚ) (field : String) : Option ℚ × ℚ :=
  match baselines field with
  | none => best
  | some b =>
      match get_field_value r field with
      | none => best
      | some val =>
          match z_score val b with
          | none => best
          | some z => if |z| > best.2 then (some z, |z|) else best

/-- The field scan of `_is_factor_abnormal`: the signed z whose `|z|` is
largest across the factor's fields, together with that largest `|z|`
(`best_signed_z`, `best_abs_z`), starting from `(None, 0.0)`. -/
def bestFieldZ (r : DailyRecord) (factor : FactorConfig) (baselines : Baselines) :
    Option ℚ × ℚ :=
  factor.fields.foldl (bestFieldZStep r baselines) (none, 0)

/-- `pareto_calculation.py : _is_factor_abnormal` — the strongest field z must
exist, pass the direction filter (`exercise`: harmful above baseline, `sleep`/
`nutrition`: harmful below), and reach `abnormal_abs_z`. -/
def is_factor_abnormal (r : DailyRecord) (factor : FactorConfig)
    (baselines : Baselines) (th : AttributionThresholds) : Bool × ℚ :=
  match bestFieldZ r factor baselines with
  | (none, _) => (false, 0)
  | (some z, az) =>
      if factor.key = "exercise" then
        if z ≤ 0 then (false, 0) else (decide (az ≥ th.abnormal_abs_z), az)
      else if factor.key = "sleep" ∨ factor.key = "nutrition" then
        if z ≥ 0 then (false, 0) else (decide (az ≥ th.abnormal_abs_z), az)
      else (decide (az ≥ th.abnormal_abs_z), az)

/-- `evidence.py : _factor_abs_z_for_day` — the maximum `|z|` across the
factor's fields, with **no** sign constraint.  (The source reads the record's
fields through the same `getattr(record, field, None)` pattern as the
attributor; both are embedded over the same record type.) -/
def factor_abs_z_for_day (r : DailyRecord) (factor : FactorConfig)
    (baselines : Baselines) : Option ℚ :=
  factor.fields.foldl
    (fun best field =>
      match baselines field with
      | none => best
      | some b =>
          match get_field_value r field with
          | none => best
          | some val =>
              match z_score val b with
              | none => best
              | some z =>
                  match best with
                  | none => some |z|
                  | some bz => if |z| > bz then some |z| else best)
    none

/-- The per-day, per-factor `factor_abnormal` flag of
`evidence.py : build_timeseries`: `abs_z >= thresholds.abnormal_abs_z` when the
factor's `abs_z` is computable, else `False`. -/
def timeseriesFactorAbnormal (r : DailyRecord) (factor : FactorConfig)
    (baselines : Baselines) (th : AttributionThresholds) : Bool :=
  match factor_abs_z_for_day r factor baselines with
  | none => false
  | some az => decide (az ≥ th.abnormal_abs_z)

/-- `pareto_calculation.py : FactorAttribution`. -/
structure FactorAttribution where
  key : String
  percent : ℚ
  raw_score : ℚ
  occurrences : ℕ
  avg_abs_z : ℚ
deriving DecidableEq, Repr

/-- The entries of the `meta` dictionary of a `ParetoResult` that properties
here consult; the remaining diagnostic entries (counts by dip kind, window
parameters, the consistent-factor set) are not modelled.  A key absent from the
dictionary is `none`; the success branch carries no `reason` key. -/
structure ParetoMeta where
  reason : Option String := none
  history_days : Option ℕ := none
  dip_count : Option ℕ := none
  max_lag_days : Option ℕ := none
deriving DecidableEq, Repr

/-- `pareto_calculation.py : ParetoResult`. -/
structure ParetoResult where
  factors_ranked : List FactorAttribution
  dominant_key : Option String
  meta : ParetoMeta
deriving DecidableEq, Repr

/-- `pareto_calculation.py : _dip_weight` — 1.25 for a large dip, else 1.0. -/
def dip_weight (dip : DipEvent) : ℚ := if dip.kind = "large" then 5 / 4 else 1

/-- `_index_records_by_date(records).get(day)` — on duplicate dates the later
record wins, as in the Python dict comprehension. -/
def recByDate (records : List DailyRecord) (d : Day) : Option DailyRecord :=
  records.reverse.find? (fun r => decide (r.date = d))

/-- Membership in the dip-context date set: `dip.date - lag` for every dip and
every `lag ∈ 0..max_lag_days`. -/
def inDipContext (dips : List DipEvent) (maxLag : ℕ) (day : Day) : Bool :=
  dips.any (fun dip =>
    (List.range (maxLag + 1)).any (fun lag => decide (day = dip.date - (lag : ℤ))))

/-- The core attribution loop, per dip and factor: did the factor qualify as
abnormal on any day of the dip's backward lag window? -/
def dipFactorContributed (records : List DailyRecord) (dip : DipEvent)
    (factor : FactorConfig) (baselines : Baselines) (th : AttributionThresholds)
    (maxLag : ℕ) : Bool :=
  (List.range (maxLag + 1)).any (fun lag =>
    match recByDate records (dip.date - (lag : ℤ)) with
    | none => false
    | some rec => (is_factor_abnormal rec factor baselines th).1)

/-- The best abnormal strength found across the dip's lag window
(`best_strength`, starting from 0.0 and updated on strictly larger values). -/
def dipFactorBestStrength (records : List DailyRecord) (dip : DipEvent)
    (factor : FactorConfig) (baselines : Baselines) (th : AttributionThresholds)
    (maxLag : ℕ) : ℚ :=
  (List.range (maxLag + 1)).foldl
    (fun best lag =>
      match recByDate records (dip.date - (lag : ℤ)) with
      | none => best
      | some rec =>
          let bs := is_factor_abnormal rec factor baselines th
          if bs.1 then (if bs.2 > best then bs.2 else best) else best)
    0

/-- `raw_scores[key]` after the core loop: over all dips, dip weight times the
best strength whenever the factor contributed. -/
def factorRawScore (records : List DailyRecord) (dips : List DipEvent)
    (factor : FactorConfig) (baselines : Baselines) (th : AttributionThresholds)
    (maxLag : ℕ) : ℚ :=
  (dips.map (fun dip =>
    if dipFactorContributed records dip factor baselines th maxLag then
      dip_weight dip * dipFactorBestStrength records dip factor baselines th maxLag
    else 0)).sum

/-- `occurrences[key]` — the number of dips the factor contributed to. -/
def factorOccurrences (records : List DailyRecord) (dips : List DipEvent)
    (factor : FactorConfig) (baselines : Baselines) (th : AttributionThresholds)
    (maxLag : ℕ) : ℕ :=
  dips.countP (fun dip => dipFactorContributed records dip factor baselines th maxLag)

/-- `abs_z_sums[key]` — the best strengths summed over contributing dips. -/
def factorAbsZSum (records : List DailyRecord) (dips : List DipEvent)
    (factor : FactorConfig) (baselines : Baselines) (th : AttributionThresholds)
    (maxLag : ℕ) : ℚ :=
  (dips.map (fun dip =>
    if dipFactorContributed records dip factor baselines th maxLag then
      dipFactorBestStrength records dip factor baselines th maxLag
    else 0)).sum

/-- `contributed_to_dip_dates[key]` — the dates of the dips the factor
contributed to (used only through membership, so a list models the set). -/
def factorContributedDates (records : List DailyRecord) (dips : List DipEvent)
    (factor : FactorConfig) (baselines : Baselines) (th : AttributionThresholds)
    (maxLag : ℕ) : List Day :=
  (dips.filter (fun dip => dipFactorContributed records dip factor baselines th maxLag)).map
    (fun d => d.date)

/-- `total_abnormal[key]` — abnormal days over the whole record set. -/
def factorTotalAbnormal (records : List DailyRecord) (factor : FactorConfig)
    (baselines : Baselines) (th : AttributionThresholds) : ℕ :=
  records.countP (fun r => (is_factor_abnormal r factor baselines th).1)

/-- `abnormal_in_context[key]` — abnormal days falling in the dip-context set. -/
def factorAbnormalInContext (records : List DailyRecord) (dips : List DipEvent)
    (factor : FactorConfig) (baselines : Baselines) (th : AttributionThresholds)
    (maxLag : ℕ) : ℕ :=
  records.countP (fun r => (is_factor_abnormal r factor baselines th).1 &&
    inDipContext dips maxLag r.date)

/-- `noise_ratio = (total_abnormal - in_context) / total_abnormal` (only read
when `total_abnormal` is non-zero). -/
def noiseShare (records : List DailyRecord) (dips : List DipEvent)
    (factor : FactorConfig) (baselines : Baselines) (th : AttributionThresholds)
    (maxLag : ℕ) : ℚ :=
  ((factorTotalAbnormal records factor baselines th : ℚ) -
      (factorAbnormalInContext records dips factor baselines th maxLag : ℚ)) /
    (factorTotalAbnormal records factor baselines th : ℚ)

/-- The noise penalty applied to one factor's raw score.  (For
`max_noise_ratio = 1` the source raises `ZeroDivisionError`; in `ℚ` the
division yields 0 — the defaults keep the divisor away from 0, and no property
here exercises that point.) -/
def applyNoisePenalty (records : List DailyRecord) (dips : List DipEvent)
    (factor : FactorConfig) (baselines : Baselines) (c : AnalysisAssumptions)
    (th : AttributionThresholds) (score : ℚ) : ℚ :=
  if factorTotalAbnormal records factor baselines th = 0 then score
  else if noiseShare records dips factor baselines th c.max_lag_days >
      c.max_noise_share then
    score * (1 - min 1 ((noiseShare records dips factor baselines th c.max_lag_days -
      c.max_noise_share) / (1 - c.max_noise_share)))
  else score

/-- The window loop of `_count_consistent_windows`, over the sorted dip dates.
Structurally recursive; for `days_window ≥ 1` it coincides with the source's
while-loop (whose index does not advance for `days_window ≤ 0`): the window
anchored at the first remaining dip date extends `days_window - 1` days, counts
if any dip date inside it is a contributing date, and the scan resumes past the
window. -/
def countConsistentWindowsGo (contributing : List Day) (daysWindow : ℕ) :
    List Day → ℕ
  | [] => 0
  | d :: rest =>
      let wEnd := d + (daysWindow : ℤ) - 1
      let hit := (d :: rest).any (fun x => decide (x ≤ wEnd) && contributing.contains x)
      (if hit then 1 else 0) +
        countConsistentWindowsGo contributing daysWindow
          (rest.dropWhile (fun x => decide (x ≤ wEnd)))
termination_by l => l.length
decreasing_by
  exact Nat.lt_succ_of_le ((List.dropWhile_sublist _).length_le)

/-- `pareto_calculation.py : _count_consistent_windows`. -/
def count_consistent_windows (dip_dates : List Day) (contributing : List Day)
    (days_window : ℕ) : ℕ :=
  countConsistentWindowsGo contributing days_window
    (sortLe (fun a b => decide (a ≤ b)) dip_dates)

/-- One factor's score after the noise penalty. -/
def factorScoreAfterNoise (records : List DailyRecord) (dips : List DipEvent)
    (factor : FactorConfig) (baselines : Baselines) (c : AnalysisAssumptions)
    (th : AttributionThresholds) : ℚ :=
  applyNoisePenalty records dips factor baselines c th
    (factorRawScore records dips factor baselines th c.max_lag_days)

/-- The consistency check: did the factor recur in at least
`min_consistent_windows` dip-anchored windows? -/
def factorIsConsistent (records : List DailyRecord) (dips : List DipEvent)
    (factor : FactorConfig) (baselines : Baselines) (c : AnalysisAssumptions)
    (th : AttributionThresholds) : Bool :=
  decide (c.min_consistent_windows ≤
    count_consistent_windows (dips.map (fun d => d.date))
      (factorContributedDates records dips factor baselines th c.max_lag_days)
      c.baseline_days_window)

/-- One factor's final score: the post-noise score, halved when the factor
fails the consistency check. -/
def factorFinalScore (records : List DailyRecord) (dips : List DipEvent)
    (factor : FactorConfig) (baselines : Baselines) (c : AnalysisAssumptions)
    (th : AttributionThresholds) : ℚ :=
  if factorIsConsistent records dips factor baselines c th then
    factorScoreAfterNoise records dips factor baselines c th
  else factorScoreAfterNoise records dips factor baselines c th * (1 / 2)

/-- One factor's accumulated state entering the normalize-and-rank stage
(`raw_scores`, `occurrences`, `abs_z_sums` for its key).  The source keys these
by `factor.key` in dicts; the embedding carries them per list entry, which
coincides with the dicts whenever the factor keys are distinct, as they are in
`DEFAULT_DRIVERS`. -/
structure FactorScore where
  key : String
  score : ℚ
  occurrences : ℕ
  abs_z_sum : ℚ
deriving DecidableEq, Repr

/-- The per-factor states entering the normalize-and-rank stage. -/
def factorScores (records : List DailyRecord) (dips : List DipEvent)
    (baselines : Baselines) (c : AnalysisAssumptions) (factors : List FactorConfig)
    (th : AttributionThresholds) : List FactorScore :=
  factors.map (fun f =>
    { key := f.key
      score := factorFinalScore records dips f baselines c th
      occurrences := factorOccurrences records dips f baselines th c.max_lag_days
      abs_z_sum := factorAbsZSum records dips f baselines th c.max_lag_days })

/-- `sorted(raw_scores.items(), key=lambda kv: kv[1], reverse=True)` — stable
descending sort by score. -/
def rankFactors (scores : List FactorScore) : List FactorScore :=
  sortLe (fun a b => decide (b.score ≤ a.score)) scores

/-- The `FactorAttribution` construction loop: skip non-positive scores,
convert to percent of `total`, attach occurrences and average strength. -/
def buildRanked (ranked : List FactorScore) (total : ℚ) : List FactorAttribution :=
  ranked.filterMap (fun s =>
    if s.score ≤ 0 then none
    else some
      { key := s.key
        percent := s.score / total * 100
        raw_score := s.score
        occurrences := s.occurrences
        avg_abs_z := if 0 < s.occurrences then s.abs_z_sum / (s.occurrences : ℚ) else 0 })

/-- The ranked list the success branch returns: normalize the final scores
against their total, rank, and truncate to `max_explanatory_factors`. -/
def paretoRanked (records : List DailyRecord) (dips : List DipEvent)
    (baselines : Baselines) (c : AnalysisAssumptions) (factors : List FactorConfig)
    (th : AttributionThresholds) : List FactorAttribution :=
  (buildRanked (rankFactors (factorScores records dips baselines c factors th))
    ((factorScores records dips baselines c factors th).map (fun s => s.score)).sum).take
    c.max_explanatory_factors

/-- The dominance rule: the top-ranked factor's key, only when its share
reaches `min_effect_size`. -/
def paretoDominant (ranked : List FactorAttribution) (c : AnalysisAssumptions) :
    Option String :=
  match ranked with
  | [] => none
  | top :: _ =>
      if c.min_effect_size ≤ top.percent / 100 then some top.key else none

/-- `pareto_calculation.py : compute_pareto_attribution` — gates with reason
codes, the attribution loop, noise penalty, consistency soft-penalty,
normalization, ranking, truncation, and the dominance threshold. -/
def compute_pareto_attribution (records : List DailyRecord)
    (dips_result : DipDetectionResult) (baselines : Baselines)
    (constants : AnalysisAssumptions) (factors : List FactorConfig)
    (thresholds : AttributionThresholds) : ParetoResult :=
  if records.length < constants.min_history_days then
    { factors_ranked := [], dominant_key := none,
      meta := { reason := some "insufficient_history",
                history_days := some records.length } }
  else if dips_result.all.length = 0 then
    { factors_ranked := [], dominant_key := none,
      meta := { reason := some "no_dips", dip_count := some 0 } }
  else if (factors.map (fun f =>
      factorRawScore records dips_result.all f baselines thresholds
        constants.max_lag_days)).sum = 0 then
    { factors_ranked := [], dominant_key := none,
      meta := { reason := some "no_explanatory_signal",
                dip_count := some dips_result.all.length,
                max_lag_days := some constants.max_lag_days } }
  else if (factors.map (fun f =>
      factorScoreAfterNoise records dips_result.all f baselines constants
        thresholds)).sum ≤ 0 then
    { factors_ranked := [], dominant_key := none,
      meta := { reason := some "all_penalized_as_noise",
                dip_count := some dips_result.all.length,
                max_lag_days := some constants.max_lag_days } }
  else
    { factors_ranked :=
        paretoRanked records dips_result.all baselines constants factors thresholds
      dominant_key :=
        paretoDominant
          (paretoRanked records dips_result.all baselines constants factors thresholds)
          constants
      meta := { dip_count := some dips_result.all.length,
                max_lag_days := some constants.max_lag_days } }

/-- A day whose sleep duration spikes far **above** baseline (protective
direction): `z = (130 - 100)/10 = +3`. -/
def exampleProtectiveRecord : DailyRecord := { date := 1, sleep_duration := some 130 }

/-- Baselines giving `sleep_duration` mean 100 / std 10 and nothing else. -/
def exampleSleepBaselines : Baselines := fun key =>
  if key = "sleep_duration" then some { mean := some 100, std := some 10, n := 10 }
  else none

/-- One record whose exercise load is far above baseline (`z = +2`). -/
def exampleParetoRecords : List DailyRecord :=
  [{ date := 1, excercise_data_point := some 120 }]

/-- Baselines giving `excercise_data_point` mean 100 / std 10 and nothing
else. -/
def exampleParetoBaselines : Baselines := fun key =>
  if key = "excercise_data_point" then some { mean := some 100, std := some 10, n := 10 }
  else none

/-- Assumptions sized for the one-record, one-dip attribution example. -/
def exampleParetoConstants : AnalysisAssumptions :=
  { min_history_days := 1, max_lag_days := 0 }

/-- C5: `z_score(value, baseline)` returns absent (`none`) when the baseline has
no mean, no std, or zero observations; when `baseline.std == 0` it returns `0.0`
iff `value` equals `baseline.mean` exactly (absent otherwise); and in all other
cases it returns `(value - mean) / std`. -/
theorem z_score_spec (v : ℚ) (b : BaselineStats) :
    ((b.mean = none ∨ b.std = none ∨ b.n = 0) → z_score v b = none) ∧
    (∀ m, b.mean = some m → b.std = some 0 → b.n ≠ 0 →
      ((z_score v b = some 0 ↔ v = m) ∧ (v ≠ m → z_score v b = none))) ∧
    (∀ m s, b.mean = some m → b.std = some s → b.n ≠ 0 → s ≠ 0 →
      z_score v b = some ((v - m) / s)) := by
  refine ⟨?_, ?_, ?_⟩
  · rintro (h | h | h)
    · cases hs : b.std <;> simp [z_score, h, hs]
    · cases hm : b.mean <;> simp [z_score, h, hm]
    · cases hm : b.mean <;> cases hs : b.std <;> simp [z_score, h, hm, hs]
  · intro m hm hs hn
    constructor
    · constructor
      · intro h
        by_contra hne
        simp [z_score, hm, hs, hn, hne] at h
      · intro h; simp [z_score, hm, hs, hn, h]
    · intro hne; simp [z_score, hm, hs, hn, hne]
  · intro m s hm hs hn hs0
    simp [z_score, hm, hs, hn, hs0]

/-- Witness for C5: a concrete evaluation through each branch of `z_score_spec`. -/
theorem z_score_spec_witness :
    z_score 5 { mean := some 3, std := some 2, n := 4 } = some 1 ∧
    z_score 7 { mean := some 7, std := some 0, n := 4 } = some 0 ∧
    z_score 8 { mean := some 7, std := some 0, n := 4 } = none ∧
    z_score 5 { mean := none, std := none, n := 0 } = none := by
  refine ⟨?_, ?_, ?_, ?_⟩
  · have h := (z_score_spec 5 { mean := some 3, std := some 2, n := 4 }).2.2 3 2
      rfl rfl (by norm_num) (by norm_num)
    rw [h]; norm_num
  · exact ((z_score_spec 7 { mean := some 7, std := some 0, n := 4 }).2.1 7
      rfl rfl (by norm_num)).1.mpr rfl
  · exact (z_score_spec 8 { mean := some 7, std := some 0, n := 4 }).2.1 7
      rfl rfl (by norm_num) |>.2 (by norm_num)
  · exact (z_score_spec 5 { mean := none, std := none, n := 0 }).1 (Or.inl rfl)

/-- If every record in a list yields `ok none` for the metric, `mapM` collects
a list of `none`s. -/
theorem mapM_metric_all_none (key : String) :
    ∀ (l : List DailyRecord), (∀ r ∈ l, get_metric_value r key = Except.ok none) →
      l.mapM (fun r => get_metric_value r key) =
        Except.ok (l.map (fun _ => (none : Option ℚ)))
  | [], _ => rfl
  | r :: l, h => by
    have hr : get_metric_value r key = Except.ok none := h r (by simp)
    have hl := mapM_metric_all_none key l (fun x hx => h x (by simp [hx]))
    simp only [List.mapM_cons, hr, hl, List.map_cons]
    rfl

/-- C8: baseline computation for a metric uses exactly the last `window_days`
records of the input (by record count): prepending any records before a
sufficiently long suffix does not change the result, and a window whose
observations are all missing yields an absent baseline (`mean`/`std` `none`,
`n = 0`), never a computed zero. -/
theorem compute_individual_baselines_window_spec (sqrtQ : ℚ → ℚ)
    (ps rs records : List DailyRecord) (key : String) (w : ℤ) (hw : 0 < w) :
    ((w ≤ (rs.length : ℤ)) →
      compute_individual_baselines sqrtQ (ps ++ rs) key w =
        compute_individual_baselines sqrtQ rs key w) ∧
    ((∀ r ∈ baselineWindow records w, get_metric_value r key = Except.ok none) →
      compute_individual_baselines sqrtQ records key w =
        Except.ok { mean := none, std := none, n := 0 }) := by
  constructor
  · intro hlen
    have hwin : baselineWindow (ps ++ rs) w = baselineWindow rs w := by
      unfold baselineWindow
      have h1 : w ≤ ((ps ++ rs).length : ℤ) := by
        simp only [List.length_append]; push_cast; omega
      rw [if_pos h1, if_pos hlen]
      have harith : (ps ++ rs).length - w.toNat = ps.length + (rs.length - w.toNat) := by
        simp only [List.length_append]; omega
      rw [harith, List.drop_append]
    unfold compute_individual_baselines
    rw [if_neg (by omega), if_neg (by omega), hwin]
  · intro hnone
    unfold compute_individual_baselines
    rw [if_neg (by omega)]
    unfold statsFromWindow
    rw [mapM_metric_all_none key _ hnone]
    simp

/-- Witness for C8: prepended records do not affect the two-day window, and an
all-missing window gives the absent baseline. -/
theorem compute_individual_baselines_window_spec_witness :
    (compute_individual_baselines (fun q => q)
        ([{ date := 0, recovery_value := some 50 }] ++
         [{ date := 1, recovery_value := some 10 }, { date := 2, recovery_value := some 20 }])
        ("recovery_value") 2 =
      compute_individual_baselines (fun q => q)
        [{ date := 1, recovery_value := some 10 }, { date := 2, recovery_value := some 20 }]
        ("recovery_value") 2) ∧
    (compute_individual_baselines (fun q => q) [{ date := 0 }] ("sleep_duration") 1 =
      Except.ok { mean := none, std := none, n := 0 }) := by
  constructor
  · exact (compute_individual_baselines_window_spec (fun q => q)
      [{ date := 0, recovery_value := some 50 }]
      [{ date := 1, recovery_value := some 10 }, { date := 2, recovery_value := some 20 }]
      [] ("recovery_value") 2 (by decide)).1 (by decide)
  · exact (compute_individual_baselines_window_spec (fun q => q) [] []
      [{ date := 0 }] ("sleep_duration") 1 (by decide)).2 (by
        intro r hr
        simp only [baselineWindow] at hr
        norm_num at hr
        subst hr
        rfl)

/-- C10: with `0 < window_days` and fewer records than `window_days`, the
baseline computation silently falls back to the entire sequence: it returns the
stats computed over all records (so shortness alone neither raises nor empties
the baseline). -/
theorem compute_individual_baselines_short_history (sqrtQ : ℚ → ℚ)
    (records : List DailyRecord) (key : String) (w : ℤ) (_hne : records ≠ [])
    (hw : 0 < w) (hshort : (records.length : ℤ) < w) :
    compute_individual_baselines sqrtQ records key w = statsFromWindow sqrtQ records key := by
  unfold compute_individual_baselines
  rw [if_neg (by omega)]
  unfold baselineWindow
  rw [if_neg (by omega)]

/-- Witness for C10: three records, window of five — the result is the stats
over all three records. -/
theorem compute_individual_baselines_short_history_witness :
    compute_individual_baselines (fun q => q)
        [{ date := 1, recovery_value := some 10 }, { date := 2, recovery_value := some 20 },
         { date := 3, recovery_value := some 30 }] ("recovery_value") 5 =
      statsFromWindow (fun q => q)
        [{ date := 1, recovery_value := some 10 }, { date := 2, recovery_value := some 20 },
         { date := 3, recovery_value := some 30 }] ("recovery_value") :=
  compute_individual_baselines_short_history (fun q => q)
    [{ date := 1, recovery_value := some 10 }, { date := 2, recovery_value := some 20 },
     { date := 3, recovery_value := some 30 }] ("recovery_value") 5 (by simp) (by norm_num)
    (by norm_num)

/-! ### Helper lemmas: stable insertion sort -/

theorem insertLe_perm (le : α → α → Bool) (x : α) :
    ∀ l : List α, (insertLe le x l).Perm (x :: l)
  | [] => List.Perm.refl _
  | y :: ys => by
    unfold insertLe
    split
    · exact List.Perm.refl _
    · exact ((insertLe_perm le x ys).cons y).trans (List.Perm.swap x y ys)

theorem sortLe_perm (le : α → α → Bool) : ∀ l : List α, (sortLe le l).Perm l
  | [] => List.Perm.refl _
  | x :: xs => (insertLe_perm le x (sortLe le xs)).trans ((sortLe_perm le xs).cons x)

theorem insertLe_pairwise (le : α → α → Bool)
    (htot : ∀ a b, le a b = true ∨ le b a = true)
    (htrans : ∀ a b c, le a b = true → le b c = true → le a c = true) (x : α) :
    ∀ l : List α, l.Pairwise (fun a b => le a b = true) →
      (insertLe le x l).Pairwise (fun a b => le a b = true)
  | [], _ => by simp [insertLe]
  | y :: ys, h => by
    rcases List.pairwise_cons.1 h with ⟨hy, hys⟩
    unfold insertLe
    by_cases hxy : le x y = true
    · rw [if_pos hxy]
      refine List.pairwise_cons.2 ⟨?_, h⟩
      intro b hb
      rcases List.mem_cons.1 hb with rfl | hb
      · exact hxy
      · exact htrans x y b hxy (hy b hb)
    · rw [if_neg hxy]
      have hyx : le y x = true := (htot x y).resolve_left hxy
      refine List.pairwise_cons.2
        ⟨?_, insertLe_pairwise le htot htrans x ys hys⟩
      intro b hb
      have hb' : b ∈ x :: ys := (insertLe_perm le x ys).mem_iff.1 hb
      rcases List.mem_cons.1 hb' with rfl | hb'
      · exact hyx
      · exact hy b hb'

theorem sortLe_pairwise (le : α → α → Bool)
    (htot : ∀ a b, le a b = true ∨ le b a = true)
    (htrans : ∀ a b c, le a b = true → le b c = true → le a c = true) :
    ∀ l : List α, (sortLe le l).Pairwise (fun a b => le a b = true)
  | [] => by simp [sortLe]
  | x :: xs =>
    insertLe_pairwise le htot htrans x (sortLe le xs) (sortLe_pairwise le htot htrans xs)

/-! ### Helper lemmas: the persistent-run scan -/

theorem runScanGo_append (q : α → Bool) (f : α → β) (k : ℕ) :
    ∀ (l : List α) (run acc : List β),
      (let s := l.foldl (runStep q f k) (run, acc); s.2 ++ runFlush k s.1) =
        acc ++ runScanGo q f k run l
  | [], run, acc => rfl
  | x :: xs, run, acc => by
    by_cases hq : q x
    · have hstep : runStep q f k (run, acc) x = (run ++ [f x], acc) := by
        simp [runStep, hq]
      simp only [List.foldl_cons, hstep, runScanGo, if_pos hq]
      exact runScanGo_append q f k xs (run ++ [f x]) acc
    · have hstep : runStep q f k (run, acc) x = ([], acc ++ runFlush k run) := by
        simp [runStep, hq]
      simp only [List.foldl_cons, hstep, runScanGo, if_neg hq]
      rw [runScanGo_append q f k xs [] (acc ++ runFlush k run), List.append_assoc]

theorem runScan_eq_go (q : α → Bool) (f : α → β) (k : ℕ) (l : List α) :
    runScan q f k l = runScanGo q f k [] l :=
  runScanGo_append q f k l [] []

theorem runFlush_nil (k : ℕ) : runFlush k ([] : List β) = [] := by
  unfold runFlush
  split <;> rfl

theorem runScanGo_eq_takeWhile (q : α → Bool) (f : α → β) (k : ℕ) :
    ∀ (l : List α) (run : List β),
      runScanGo q f k run l =
        runFlush k (run ++ (l.takeWhile q).map f) ++ runScanGo q f k [] (l.dropWhile q)
  | [], run => by
    simp [runScanGo, runFlush_nil]
  | x :: xs, run => by
    by_cases hq : q x
    · rw [runScanGo, if_pos hq, runScanGo_eq_takeWhile q f k xs (run ++ [f x]),
        List.takeWhile_cons_of_pos hq, List.dropWhile_cons_of_pos hq]
      simp
    · rw [runScanGo, if_neg hq, List.takeWhile_cons_of_neg hq,
        List.dropWhile_cons_of_neg hq]
      have hgo : runScanGo q f k [] (x :: xs) = runScanGo q f k [] xs := by
        rw [runScanGo, if_neg hq, runFlush_nil, List.nil_append]
      rw [hgo]
      simp

theorem runScan_eq_maximalRuns (q : α → Bool) (f : α → β) (k : ℕ) (l : List α) :
    runScan q f k l =
      (((maximalRuns q l).filter (fun run => decide (k ≤ run.length))).flatten).map f := by
  rw [runScan_eq_go]
  induction l using maximalRuns.induct (q := q) with
  | case1 => simp [maximalRuns, runScanGo, runFlush_nil]
  | case2 x xs hq ih =>
      rw [runScanGo_eq_takeWhile, List.nil_append, maximalRuns, if_pos hq]
      rw [List.takeWhile_cons_of_pos hq, List.dropWhile_cons_of_pos hq] at *
      rw [ih]
      by_cases hk : k ≤ (x :: xs.takeWhile q).length
      · rw [List.filter_cons_of_pos (by simpa using hk)]
        unfold runFlush
        rw [if_pos (by simpa using hk)]
        simp
      · rw [List.filter_cons_of_neg (by simpa using hk)]
        unfold runFlush
        rw [if_neg (by simpa using hk)]
        simp
  | case3 x xs hq ih =>
      rw [maximalRuns, if_neg hq, ← ih]
      rw [runScanGo, if_neg hq, runFlush_nil, List.nil_append]

theorem runScanGo_mem (q : α → Bool) (f : α → β) (k : ℕ) (e : β) :
    ∀ (l : List α) (run : List β), e ∈ runScanGo q f k run l →
      e ∈ run ∨ ∃ x ∈ l, e = f x
  | [], run => by
    intro h
    rw [runScanGo] at h
    unfold runFlush at h
    split at h
    · exact Or.inl h
    · simp at h
  | x :: xs, run => by
    intro h
    rw [runScanGo] at h
    by_cases hq : q x
    · rw [if_pos hq] at h
      rcases runScanGo_mem q f k e xs (run ++ [f x]) h with hr | ⟨y, hy, hey⟩
      · rcases List.mem_append.1 hr with hr | hr
        · exact Or.inl hr
        · exact Or.inr ⟨x, by simp, by simpa using hr⟩
      · exact Or.inr ⟨y, by simp [hy], hey⟩
    · rw [if_neg hq] at h
      rcases List.mem_append.1 h with hr | hr
      · unfold runFlush at hr
        split at hr
        · exact Or.inl hr
        · simp at hr
      · rcases runScanGo_mem q f k e xs [] hr with hr' | ⟨y, hy, hey⟩
        · simp at hr'
        · exact Or.inr ⟨y, by simp [hy], hey⟩

/-! ### Helper lemmas: the dedup dictionary -/

theorem lookupDate_eq_none_iff (k : Day) :
    ∀ m : List (Day × DipEvent), lookupDate k m = none ↔ k ∉ m.map Prod.fst
  | [] => by simp [lookupDate]
  | kv :: rest => by
    by_cases h : kv.1 = k
    · simp [lookupDate, h]
    · simp only [lookupDate, if_neg h, List.map_cons, List.mem_cons,
        lookupDate_eq_none_iff k rest]
      constructor
      · intro hn hk
        rcases hk with hk | hk
        · exact h hk.symm
        · exact hn hk
      · intro hn
        exact fun hk => hn (Or.inr hk)

theorem lookupDate_mem (k : Day) (e : DipEvent) :
    ∀ m : List (Day × DipEvent), lookupDate k m = some e → (k, e) ∈ m
  | [], h => by simp [lookupDate] at h
  | kv :: rest, h => by
    by_cases hk : kv.1 = k
    · rw [lookupDate, if_pos hk] at h
      obtain ⟨k1, v1⟩ := kv
      obtain rfl : k1 = k := hk
      obtain rfl : v1 = e := Option.some.inj h
      exact List.mem_cons_self _ _
    · rw [lookupDate, if_neg hk] at h
      exact List.mem_cons_of_mem kv (lookupDate_mem k e rest h)

theorem lookupDate_append_of_none (k : Day) (rest : List (Day × DipEvent)) :
    ∀ m : List (Day × DipEvent), lookupDate k m = none →
      lookupDate k (m ++ rest) = lookupDate k rest
  | [], _ => by simp
  | kv :: m, h => by
    by_cases hk : kv.1 = k
    · rw [lookupDate, if_pos hk] at h
      exact absurd h (by simp)
    · rw [lookupDate, if_neg hk] at h
      rw [List.cons_append, lookupDate, if_neg hk]
      exact lookupDate_append_of_none k rest m h

theorem lookupDate_append_of_some (k : Day) (e : DipEvent) (rest : List (Day × DipEvent)) :
    ∀ m : List (Day × DipEvent), lookupDate k m = some e →
      lookupDate k (m ++ rest) = some e
  | [], h => by simp [lookupDate] at h
  | kv :: m, h => by
    by_cases hk : kv.1 = k
    · rw [lookupDate, if_pos hk] at h
      rw [List.cons_append, lookupDate, if_pos hk]
      exact h
    · rw [lookupDate, if_neg hk] at h
      rw [List.cons_append, lookupDate, if_neg hk]
      exact lookupDate_append_of_some k e rest m h

theorem lookupDate_replace_of_isSome (k : Day) (d : DipEvent) :
    ∀ m : List (Day × DipEvent), (lookupDate k m).isSome →
      lookupDate k (m.map (fun kv => if kv.1 = k then (k, d) else kv)) = some d
  | [], h => by simp [lookupDate] at h
  | kv :: m, h => by
    by_cases hk : kv.1 = k
    · rw [List.map_cons, if_pos hk, lookupDate, if_pos rfl]
    · rw [lookupDate, if_neg hk] at h
      rw [List.map_cons, if_neg hk, lookupDate, if_neg hk]
      exact lookupDate_replace_of_isSome k d m h

theorem lookupDate_replace_of_ne (k k' : Day) (d : DipEvent) (hne : k ≠ k') :
    ∀ m : List (Day × DipEvent),
      lookupDate k (m.map (fun kv => if kv.1 = k' then (k', d) else kv)) =
        lookupDate k m
  | [] => rfl
  | kv :: m => by
    by_cases hk : kv.1 = k'
    · rw [List.map_cons, if_pos hk, lookupDate, if_neg (fun h => hne h.symm),
        lookupDate, if_neg (by rw [hk]; exact fun h => hne h.symm)]
      exact lookupDate_replace_of_ne k k' d hne m
    · rw [List.map_cons, if_neg hk, lookupDate]
      by_cases hkk : kv.1 = k
      · rw [if_pos hkk, lookupDate, if_pos hkk]
      · rw [if_neg hkk, lookupDate, if_neg hkk]
        exact lookupDate_replace_of_ne k k' d hne m

theorem keys_insertDip (m : List (Day × DipEvent)) (d : DipEvent) :
    (insertDip m d).map Prod.fst =
      if lookupDate d.date m = none then m.map Prod.fst ++ [d.date]
      else m.map Prod.fst := by
  unfold insertDip
  cases h : lookupDate d.date m with
  | none => simp
  | some e =>
    rw [if_neg (by simp)]
    show (if e.kind = "persistent" ∧ d.kind = "large" then
        m.map (fun kv => if kv.1 = d.date then (d.date, d) else kv)
      else m).map Prod.fst = m.map Prod.fst
    split
    · rw [List.map_map]
      refine List.map_congr_left ?_
      intro kv _
      by_cases hk : kv.1 = d.date
      · simp [hk]
      · simp [hk]
    · rfl

theorem lookupDate_insertDip_of_ne (m : List (Day × DipEvent)) (d : DipEvent) (k : Day)
    (hne : k ≠ d.date) : lookupDate k (insertDip m d) = lookupDate k m := by
  unfold insertDip
  cases h : lookupDate d.date m with
  | none =>
    show lookupDate k (m ++ [(d.date, d)]) = lookupDate k m
    cases hk : lookupDate k m with
    | none =>
      rw [lookupDate_append_of_none k _ m hk, lookupDate, if_neg (fun h => hne h.symm)]
      rfl
    | some e => exact lookupDate_append_of_some k e _ m hk
  | some e =>
    show lookupDate k (if e.kind = "persistent" ∧ d.kind = "large" then
        m.map (fun kv => if kv.1 = d.date then (d.date, d) else kv)
      else m) = lookupDate k m
    split
    · exact lookupDate_replace_of_ne k d.date d hne m
    · rfl

theorem lookupDate_insertDip_large (m : List (Day × DipEvent)) (d : DipEvent) (k : Day)
    (e : DipEvent) (h : lookupDate k m = some e) (he : e.kind = "large") :
    lookupDate k (insertDip m d) = some e := by
  by_cases hk : k = d.date
  · subst hk
    unfold insertDip
    rw [h]
    show lookupDate d.date (if e.kind = "persistent" ∧ d.kind = "large" then
        m.map (fun kv => if kv.1 = d.date then (d.date, d) else kv)
      else m) = some e
    rw [if_neg (by rw [he]; simp)]
    exact h
  · rw [lookupDate_insertDip_of_ne m d k hk]
    exact h

theorem lookupDate_insertDip_self (m : List (Day × DipEvent)) (d : DipEvent)
    (hd : d.kind = "large")
    (hm : ∀ e, lookupDate d.date m = some e → e.kind = "large" ∨ e.kind = "persistent") :
    ∃ e, lookupDate d.date (insertDip m d) = some e ∧ e.kind = "large" := by
  unfold insertDip
  cases h : lookupDate d.date m with
  | none =>
    refine ⟨d, ?_, hd⟩
    show lookupDate d.date (m ++ [(d.date, d)]) = some d
    rw [lookupDate_append_of_none d.date _ m h, lookupDate, if_pos rfl]
  | some e =>
    show ∃ e', lookupDate d.date (if e.kind = "persistent" ∧ d.kind = "large" then
        m.map (fun kv => if kv.1 = d.date then (d.date, d) else kv)
      else m) = some e' ∧ e'.kind = "large"
    rcases hm e h with he | he
    · rw [if_neg (by rw [he]; simp)]
      exact ⟨e, h, he⟩
    · rw [if_pos (by rw [he, hd]; exact ⟨rfl, rfl⟩)]
      exact ⟨d, lookupDate_replace_of_isSome d.date d m (by rw [h]; rfl), hd⟩

theorem mem_insertDip (m : List (Day × DipEvent)) (d : DipEvent) :
    ∀ kv ∈ insertDip m d, kv ∈ m ∨ kv = (d.date, d) := by
  intro kv hkv
  unfold insertDip at hkv
  split at hkv
  · rcases List.mem_append.1 hkv with h | h
    · exact Or.inl h
    · exact Or.inr (by simpa using h)
  · split at hkv
    · rcases List.mem_map.1 hkv with ⟨kv', hkv', hval⟩
      by_cases hk : kv'.1 = d.date
      · rw [if_pos hk] at hval
        exact Or.inr hval.symm
      · rw [if_neg hk] at hval
        exact Or.inl (hval ▸ hkv')
    · exact Or.inl hkv

theorem foldl_insertDip_inv (dips : List DipEvent) :
    ∀ m : List (Day × DipEvent),
      (m.map Prod.fst).Nodup →
      (∀ kv ∈ m, kv.2.date = kv.1) →
      (∀ kv ∈ m, kv.2.kind = "large" ∨ kv.2.kind = "persistent") →
      (∀ c ∈ dips, c.kind = "large" ∨ c.kind = "persistent") →
      ((dips.foldl insertDip m).map Prod.fst).Nodup ∧
      (∀ kv ∈ dips.foldl insertDip m, kv.2.date = kv.1) ∧
      (∀ kv ∈ dips.foldl insertDip m, kv.2.kind = "large" ∨ kv.2.kind = "persistent") := by
  induction dips with
  | nil => intro m h1 h2 h3 _; exact ⟨h1, h2, h3⟩
  | cons d rest ih =>
    intro m h1 h2 h3 hkinds
    rw [List.foldl_cons]
    refine ih (insertDip m d) ?_ ?_ ?_ (fun c hc => hkinds c (List.mem_cons_of_mem d hc))
    · rw [keys_insertDip]
      split
      · rename_i hnone
        have hnotin : d.date ∉ m.map Prod.fst := (lookupDate_eq_none_iff d.date m).1 hnone
        simp [List.nodup_append, h1, hnotin]
      · exact h1
    · intro kv hkv
      rcases mem_insertDip m d kv hkv with hkv | rfl
      · exact h2 kv hkv
      · rfl
    · intro kv hkv
      rcases mem_insertDip m d kv hkv with hkv | rfl
      · exact h3 kv hkv
      · exact hkinds d (List.mem_cons_self d rest)

theorem foldl_insertDip_lookup_large (dips : List DipEvent) :
    ∀ (m : List (Day × DipEvent)) (k : Day),
      (∀ c ∈ dips, c.kind = "large" ∨ c.kind = "persistent") →
      (∀ kv ∈ m, kv.2.kind = "large" ∨ kv.2.kind = "persistent") →
      ((∃ e, lookupDate k m = some e ∧ e.kind = "large") ∨
        (∃ c ∈ dips, c.date = k ∧ c.kind = "large")) →
      ∃ e, lookupDate k (dips.foldl insertDip m) = some e ∧ e.kind = "large" := by
  induction dips with
  | nil =>
    intro m k _ _ h
    rcases h with h | ⟨c, hc, _⟩
    · exact h
    · simp at hc
  | cons d rest ih =>
    intro m k hkinds hm h
    rw [List.foldl_cons]
    have hm' : ∀ kv ∈ insertDip m d, kv.2.kind = "large" ∨ kv.2.kind = "persistent" := by
      intro kv hkv
      rcases mem_insertDip m d kv hkv with hkv | rfl
      · exact hm kv hkv
      · exact hkinds d (List.mem_cons_self d rest)
    have hkinds' : ∀ c ∈ rest, c.kind = "large" ∨ c.kind = "persistent" :=
      fun c hc => hkinds c (List.mem_cons_of_mem d hc)
    refine ih (insertDip m d) k hkinds' hm' ?_
    rcases h with ⟨e, hle, hek⟩ | ⟨c, hc, hcd, hck⟩
    · exact Or.inl ⟨e, lookupDate_insertDip_large m d k e hle hek, hek⟩
    · rcases List.mem_cons.1 hc with rfl | hc
      · subst hcd
        refine Or.inl ?_
        refine lookupDate_insertDip_self m c hck ?_
        intro e he
        exact hm (c.date, e) (lookupDate_mem c.date e m he)
      · exact Or.inr ⟨c, hc, hcd, hck⟩

theorem filterMap_lookup_map_date (byDate : List (Day × DipEvent))
    (hinv : ∀ kv ∈ byDate, kv.2.date = kv.1) :
    ∀ ks : List Day, (∀ k ∈ ks, lookupDate k byDate ≠ none) →
      ((ks.filterMap (fun k => lookupDate k byDate)).map (fun e => e.date)) = ks
  | [] => by simp
  | k :: ks => by
    intro h
    cases hk : lookupDate k byDate with
    | none => exact absurd hk (h k (List.mem_cons_self k ks))
    | some e =>
      have hrest := filterMap_lookup_map_date byDate hinv ks
        (fun k' hk' => h k' (List.mem_cons_of_mem k hk'))
      simp only [List.filterMap_cons, hk, List.map_cons, hrest]
      rw [hinv (k, e) (lookupDate_mem k e byDate hk)]

/-- Every large-pass candidate has kind `"large"`. -/
theorem largeDipCandidates_kind (records : List DailyRecord) (b : BaselineStats)
    (th : DipThresholds) : ∀ e ∈ largeDipCandidates records b th, e.kind = "large" := by
  intro e he
  rcases List.mem_filterMap.1 he with ⟨rz, _, hrz⟩
  rcases hz1 : rz.1.recovery_value with _ | v <;> rcases hz2 : rz.2 with _ | z <;>
    simp [hz1, hz2] at hrz
  rcases hrz with ⟨_, rfl⟩
  rfl

/-- Every persistent-pass candidate has kind `"persistent"`. -/
theorem persistentDipCandidates_kind (records : List DailyRecord) (b : BaselineStats)
    (th : DipThresholds) :
    ∀ e ∈ persistentDipCandidates records b th, e.kind = "persistent" := by
  intro e he
  rw [persistentDipCandidates, runScan_eq_go] at he
  rcases runScanGo_mem _ _ _ e _ [] he with h | ⟨x, _, rfl⟩
  · simp at h
  · rfl

/-- The combined dedup/sort stage: output is strictly sorted by date (hence
one event per date), an output event on a date with a large candidate has kind
`"large"`, and every large candidate's date is represented. -/
theorem dipOutput_spec (dips : List DipEvent)
    (hkinds : ∀ c ∈ dips, c.kind = "large" ∨ c.kind = "persistent") :
    (dipOutput dips).Pairwise (fun e₁ e₂ => e₁.date < e₂.date) ∧
    (∀ e ∈ dipOutput dips,
      lookupDate e.date (dedupByDate dips) = some e) ∧
    (∀ c ∈ dips, c.kind = "large" →
      ∃ e ∈ dipOutput dips, e.date = c.date ∧ e.kind = "large") := by
  have hinv := foldl_insertDip_inv dips [] (by simp) (by simp) (by simp) hkinds
  obtain ⟨hnodup, hdate, hkv⟩ := hinv
  have htot : ∀ a b : Day, decide (a ≤ b) = true ∨ decide (b ≤ a) = true := by
    intro a b
    rcases le_total a b with h | h
    · exact Or.inl (by simpa using h)
    · exact Or.inr (by simpa using h)
  have htrans : ∀ a b c : Day, decide (a ≤ b) = true → decide (b ≤ c) = true →
      decide (a ≤ c) = true := by
    intro a b c h1 h2
    simp only [decide_eq_true_eq] at *
    exact le_trans h1 h2
  set m := dedupByDate dips with hm
  set keys := m.map Prod.fst with hkeys
  set sorted := sortLe (fun a b => decide (a ≤ b)) keys with hsorted
  have hperm : sorted.Perm keys := sortLe_perm _ keys
  have hnodup_sorted : sorted.Nodup := (hperm.nodup_iff).2 hnodup
  have hpair : sorted.Pairwise (fun a b => decide (a ≤ b) = true) :=
    sortLe_pairwise _ htot htrans keys
  have hlt : sorted.Pairwise (fun a b : Day => a < b) := by
    have := hpair.and hnodup_sorted
    exact this.imp (fun h => lt_of_le_of_ne (by simpa using h.1) h.2)
  have hksome : ∀ k ∈ sorted, lookupDate k m ≠ none := by
    intro k hk hnone
    exact ((lookupDate_eq_none_iff k m).1 hnone) (hperm.mem_iff.1 hk)
  have hout : dipOutput dips = sorted.filterMap (fun k => lookupDate k m) := rfl
  have hmapdate : ((sorted.filterMap (fun k => lookupDate k m)).map (fun e => e.date)) =
      sorted := filterMap_lookup_map_date m hdate sorted hksome
  refine ⟨?_, ?_, ?_⟩
  · rw [hout]
    have := hmapdate ▸ hlt
    exact (List.pairwise_map.1 this)
  · intro e he
    rw [hout] at he
    rcases List.mem_filterMap.1 he with ⟨k, _, hlk⟩
    have : e.date = k := hdate (k, e) (lookupDate_mem k e m hlk)
    rw [this]
    exact hlk
  · intro c hc hck
    have hlook := foldl_insertDip_lookup_large dips [] c.date hkinds (by simp)
      (Or.inr ⟨c, hc, rfl, hck⟩)
    rcases hlook with ⟨e, hle, hek⟩
    have hle2 : lookupDate c.date m = some e := hle
    have hkmem : c.date ∈ keys := by
      by_contra hneg
      rw [← lookupDate_eq_none_iff c.date m] at hneg
      rw [hneg] at hle2
      cases hle2
    have hkm : c.date ∈ sorted := hperm.mem_iff.2 hkmem
    refine ⟨e, ?_, ?_, hek⟩
    · rw [hout]
      exact List.mem_filterMap.2 ⟨c.date, hkm, hle2⟩
    · exact hdate (c.date, e) (lookupDate_mem c.date e m hle2)

/-- C3: `detect_recovery_dips` returns at most one event per date and sorts
chronologically (the dates are strictly increasing), and a date that qualifies
as a large dip is always reported with kind `"large"`, also when it is part of
a persistent run: any reported event on a large-candidate date has kind
`"large"`, and under the detector's gates every large-candidate date is
reported with kind `"large"`. -/
theorem detect_recovery_dips_dedup_sorted (records : List DailyRecord)
    (b : BaselineStats) (a : AnalysisAssumptions) (th : DipThresholds) :
    (detect_recovery_dips records b a th).Pairwise (fun e₁ e₂ => e₁.date < e₂.date) ∧
    (∀ e ∈ detect_recovery_dips records b a th,
      (∃ c ∈ largeDipCandidates records b th, c.date = e.date) → e.kind = "large") ∧
    (a.min_history_days ≤ records.length → b.mean ≠ none → b.std ≠ none →
      a.min_observations ≤ b.n →
      ∀ c ∈ largeDipCandidates records b th,
        ∃ e ∈ detect_recovery_dips records b a th, e.date = c.date ∧ e.kind = "large") := by
  by_cases hlen : records.length < a.min_history_days
  · have hdet : detect_recovery_dips records b a th = [] := by
      unfold detect_recovery_dips
      rw [if_pos hlen]
    rw [hdet]
    exact ⟨List.Pairwise.nil, by simp, fun h1 => absurd h1 (by omega)⟩
  · cases hmean : b.mean with
    | none =>
      have hdet : detect_recovery_dips records b a th = [] := by
        unfold detect_recovery_dips
        rw [if_neg hlen, hmean]
      rw [hdet]
      exact ⟨List.Pairwise.nil, by simp, fun _ h2 => absurd rfl h2⟩
    | some mu =>
      cases hstd : b.std with
      | none =>
        have hdet : detect_recovery_dips records b a th = [] := by
          unfold detect_recovery_dips
          rw [if_neg hlen, hmean, hstd]
        rw [hdet]
        exact ⟨List.Pairwise.nil, by simp, fun _ _ h3 => absurd rfl h3⟩
      | some sd =>
        by_cases hn : b.n < a.min_observations
        · have hdet : detect_recovery_dips records b a th = [] := by
            unfold detect_recovery_dips
            rw [if_neg hlen, hmean, hstd, if_pos hn]
          rw [hdet]
          exact ⟨List.Pairwise.nil, by simp, fun _ _ _ h4 => absurd h4 (by omega)⟩
        · have hdet : detect_recovery_dips records b a th =
              dipOutput (largeDipCandidates records b th ++
                persistentDipCandidates records b th) := by
            unfold detect_recovery_dips
            rw [if_neg hlen, hmean, hstd, if_neg hn]
          have hkinds : ∀ c ∈ largeDipCandidates records b th ++
              persistentDipCandidates records b th,
              c.kind = "large" ∨ c.kind = "persistent" := by
            intro c hc
            rcases List.mem_append.1 hc with hc | hc
            · exact Or.inl (largeDipCandidates_kind records b th c hc)
            · exact Or.inr (persistentDipCandidates_kind records b th c hc)
          obtain ⟨hpair, hlook, hexist⟩ := dipOutput_spec _ hkinds
          refine ⟨hdet ▸ hpair, ?_, ?_⟩
          · intro e he ⟨c, hc, hcd⟩
            rw [hdet] at he
            have h1 := hlook e he
            have hcdips : c ∈ largeDipCandidates records b th ++
                persistentDipCandidates records b th :=
              List.mem_append.2 (Or.inl hc)
            obtain ⟨e', he', hed', hek'⟩ :=
              hexist c hcdips (largeDipCandidates_kind records b th c hc)
            have h2 := hlook e' he'
            rw [hed', hcd] at h2
            rw [h1] at h2
            cases h2
            exact hek'
          · intro _ _ _ _ c hc
            obtain ⟨e, he, hed, hek⟩ := hexist c (List.mem_append.2 (Or.inl hc))
              (largeDipCandidates_kind records b th c hc)
            exact ⟨e, hdet ▸ he, hed, hek⟩

/-- Witness for C3: on a concrete input whose day 1 is a large dip, the
detector reports day 1 with kind `"large"`. -/
theorem detect_recovery_dips_dedup_sorted_witness :
    ∃ e ∈ detect_recovery_dips exampleLargeRecords exampleDipBaseline
        exampleDipAssumptions {}, e.date = (1 : ℤ) ∧ e.kind = "large" := by
  have hc : mkDipEvent exampleDipBaseline ("large")
      { date := 1, recovery_value := some 70 } ((70 - 100) / 10) ∈
      largeDipCandidates exampleLargeRecords exampleDipBaseline {} := by
    norm_num [largeDipCandidates, perDayZ, z_score, exampleLargeRecords,
      exampleDipBaseline, List.filterMap_cons, List.filterMap_nil, mkDipEvent]
  have h := (detect_recovery_dips_dedup_sorted exampleLargeRecords exampleDipBaseline
      exampleDipAssumptions {}).2.2 (by decide) (by decide) (by decide) (by decide)
      _ hc
  simpa using h

/-- C4: in persistent-dip detection a missing or unscorable recovery value
breaks the current run, and a run is emitted (every day of it) exactly when its
length reaches `persistent_days`, trailing runs included: the scan equals the
filter of the maximal qualifying runs by length.  In particular, on recovery
`[92, None, 92, 92]` against mean 100 / std 10 with `persistent_days = 2`, the
detector yields exactly the two persistent dips on days 3 and 4, and none on
day 1. -/
theorem persistent_dips_run_spec :
    (∀ (records : List DailyRecord) (b : BaselineStats) (th : DipThresholds),
      persistentDipCandidates records b th =
        (((maximalRuns (persistentQualifies th) (perDayZ records b)).filter
            (fun run => decide (th.persistent_days ≤ run.length))).flatten).map
          (persistentEvent b)) ∧
    detect_recovery_dips exampleDipRecords exampleDipBaseline exampleDipAssumptions {} =
      [exampleDip 3, exampleDip 4] := by
  constructor
  · intro records b th
    exact runScan_eq_maximalRuns _ _ _ _
  · norm_num [detect_recovery_dips, exampleDipRecords, exampleDipBaseline,
      exampleDipAssumptions, largeDipCandidates, persistentDipCandidates, perDayZ,
      z_score, runScan, runStep, runFlush, persistentQualifies, persistentEvent,
      mkDipEvent, dipOutput, dedupByDate, insertDip, lookupDate, sortLe, insertLe,
      exampleDip, List.filterMap_cons, List.filterMap_nil]

/-- C6: once the history, baseline and observation gates pass,
`is_stable_recovery` declares `stable = true` iff (the coefficient of variation
`|std/mean|` is at most 0.08 when `|mean| ≥ 1e-9` — the regime where the source
computes a cv — or `|mean| < 1e-9` with `std == 0`) and the dip count is at
most 0; any single dip forces `stable = false` regardless of variance. -/
theorem is_stable_recovery_iff (records : List DailyRecord) (b : BaselineStats)
    (dip_count : ℤ) (a : AnalysisAssumptions) (mu sd : ℚ)
    (hlen : a.min_history_days ≤ records.length)
    (hm : b.mean = some mu) (hs : b.std = some sd) (hn : b.n ≠ 0)
    (hobs : a.min_observations ≤ b.n) :
    ((is_stable_recovery records b dip_count a).stable = true ↔
      ((1 / 1000000000 ≤ |mu| ∧ |sd / mu| ≤ 8 / 100) ∨
        (|mu| < 1 / 1000000000 ∧ sd = 0)) ∧ dip_count ≤ 0) ∧
    (1 ≤ dip_count → (is_stable_recovery records b dip_count a).stable = false) := by
  have hres : is_stable_recovery records b dip_count a =
      { stable :=
          (match (if |mu| < 1 / 1000000000 then (none : Option ℚ) else some |sd / mu|) with
            | some c => decide (c ≤ 8 / 100)
            | none => decide (sd = 0)) && decide (dip_count ≤ 0)
        reason := none } := by
    unfold is_stable_recovery
    rw [if_neg (by omega), if_neg (by simp [hm, hs, hn]), if_neg (by omega), hm, hs]
    rfl
  constructor
  · rw [hres]
    by_cases hc : |mu| < 1 / 1000000000
    · simp only [if_pos hc]
      constructor
      · intro h
        simp only [Bool.and_eq_true, decide_eq_true_eq] at h
        exact ⟨Or.inr ⟨hc, h.1⟩, h.2⟩
      · rintro ⟨h1 | h1, h2⟩
        · exact absurd h1.1 (by linarith)
        · simp only [Bool.and_eq_true, decide_eq_true_eq]
          exact ⟨h1.2, h2⟩
    · simp only [if_neg hc]
      constructor
      · intro h
        simp only [Bool.and_eq_true, decide_eq_true_eq] at h
        exact ⟨Or.inl ⟨le_of_not_lt hc, h.1⟩, h.2⟩
      · rintro ⟨h1 | h1, h2⟩
        · simp only [Bool.and_eq_true, decide_eq_true_eq]
          exact ⟨h1.2, h2⟩
        · exact absurd h1.1 (by linarith [le_of_not_lt hc])
  · intro hdip
    rw [hres]
    have hd : decide (dip_count ≤ 0) = false := by
      simp only [decide_eq_false_iff_not]
      omega
    simp [hd]

/-- Witness for C6: a tight baseline (mean 100, std 2, cv = 0.02) with zero
dips is stable; the same input with one dip is not. -/
theorem is_stable_recovery_iff_witness :
    (is_stable_recovery exampleDipRecords { mean := some 100, std := some 2, n := 10 }
        0 exampleDipAssumptions).stable = true ∧
    (is_stable_recovery exampleDipRecords { mean := some 100, std := some 2, n := 10 }
        1 exampleDipAssumptions).stable = false := by
  constructor
  · exact (is_stable_recovery_iff exampleDipRecords
      { mean := some 100, std := some 2, n := 10 } 0 exampleDipAssumptions 100 2
      (by decide) rfl rfl (by decide) (by decide)).1.mpr
      ⟨Or.inl ⟨by norm_num, by rw [abs_of_nonneg (by norm_num)]; norm_num⟩, by norm_num⟩
  · exact (is_stable_recovery_iff exampleDipRecords
      { mean := some 100, std := some 2, n := 10 } 1 exampleDipAssumptions 100 2
      (by decide) rfl rfl (by decide) (by decide)).2 (by norm_num)

/-- C9: the evidence timeseries' per-factor abnormal flag is not
direction-filtered: it is true iff the factor's maximum `|z|` across its fields
is computable and at least `abnormal_abs_z`, with no sign constraint — and on a
day whose sleep duration spikes above baseline (`z = +3`) the timeseries marks
the sleep factor abnormal while the attributor's `_is_factor_abnormal`
rejects it. -/
theorem timeseries_abnormal_not_direction_filtered :
    (∀ (r : DailyRecord) (factor : FactorConfig) (baselines : Baselines)
        (th : AttributionThresholds),
      timeseriesFactorAbnormal r factor baselines th = true ↔
        ∃ az, factor_abs_z_for_day r factor baselines = some az ∧
          th.abnormal_abs_z ≤ az) ∧
    timeseriesFactorAbnormal exampleProtectiveRecord
      { key := "sleep", fields := ["sleep_duration", "sleep_consistency"] }
      exampleSleepBaselines {} = true ∧
    (is_factor_abnormal exampleProtectiveRecord
      { key := "sleep", fields := ["sleep_duration", "sleep_consistency"] }
      exampleSleepBaselines {}).1 = false := by
  refine ⟨?_, ?_, ?_⟩
  · intro r factor baselines th
    unfold timeseriesFactorAbnormal
    cases h : factor_abs_z_for_day r factor baselines with
    | none => simp
    | some az => simp [ge_iff_le]
  · unfold timeseriesFactorAbnormal factor_abs_z_for_day exampleProtectiveRecord
      exampleSleepBaselines
    simp only [List.foldl_cons, List.foldl_nil, get_field_value, String.reduceEq,
      if_true, if_false, reduceIte, z_score]
    norm_num
  · unfold is_factor_abnormal bestFieldZ bestFieldZStep exampleProtectiveRecord
      exampleSleepBaselines
    simp only [List.foldl_cons, List.foldl_nil, get_field_value, String.reduceEq,
      if_true, if_false, reduceIte, z_score]
    norm_num

/-! ### Helper lemmas: error channels -/

theorem baselineWindow_ne_nil (records : List DailyRecord) (w : ℤ)
    (h : records ≠ []) (hw : 0 < w) : baselineWindow records w ≠ [] := by
  unfold baselineWindow
  split
  · rename_i hle
    intro hnil
    have hlen := congrArg List.length hnil
    rw [List.length_drop] at hlen
    simp only [List.length_nil] at hlen
    have hne : records.length ≠ 0 := fun h0 => h (List.length_eq_zero.1 h0)
    omega
  · exact h

theorem statsFromWindow_invalid_key (sqrtQ : ℚ → ℚ) (window : List DailyRecord)
    (key : String) (hkey : key ∉ validMetricKeys) (hne : window ≠ []) :
    statsFromWindow sqrtQ window key =
      Except.error ("Unknown metric key: " ++ key) := by
  obtain ⟨r, rest, rfl⟩ := List.exists_cons_of_ne_nil hne
  have hget : get_metric_value r key = Except.error ("Unknown metric key: " ++ key) := by
    simp only [validMetricKeys, List.mem_cons, List.not_mem_nil, or_false, not_or] at hkey
    obtain ⟨h1, h2, h3, h4, h5⟩ := hkey
    unfold get_metric_value
    rw [if_neg h1, if_neg h2, if_neg h3, if_neg h4, if_neg h5]
  have hmap : (r :: rest).mapM (fun r => get_metric_value r key) =
      Except.error ("Unknown metric key: " ++ key) := by
    rw [List.mapM_cons, hget]
    rfl
  unfold statsFromWindow
  rw [hmap]

/-- C7: the two failure channels are separate.  Contract violations in
baseline computation are typed errors: `days_window <= 0`, and an unknown
metric key (which surfaces whenever the window is non-empty).  Statistical
insufficiency is a normal value with a `meta.reason` code: too little history
and zero dips give reason-coded empty `ParetoResult`s, and the dip detector and
stability evaluator return `[]` / `stable=False` with a reason rather than
raising — the attributor, detector and stability evaluator are total by
type, with no error channel at all. -/
theorem error_channels_separate :
    (∀ (sqrtQ : ℚ → ℚ) (records : List DailyRecord) (key : String) (w : ℤ),
      w ≤ 0 → compute_individual_baselines sqrtQ records key w =
        Except.error ("days_window must be > 0")) ∧
    (∀ (sqrtQ : ℚ → ℚ) (records : List DailyRecord) (key : String) (w : ℤ),
      0 < w → records ≠ [] → key ∉ validMetricKeys →
      compute_individual_baselines sqrtQ records key w =
        Except.error ("Unknown metric key: " ++ key)) ∧
    (∀ (records : List DailyRecord) (dips_result : DipDetectionResult)
        (baselines : Baselines) (c : AnalysisAssumptions)
        (factors : List FactorConfig) (th : AttributionThresholds),
      records.length < c.min_history_days →
      compute_pareto_attribution records dips_result baselines c factors th =
        { factors_ranked := [], dominant_key := none,
          meta := { reason := some "insufficient_history",
                    history_days := some records.length } }) ∧
    (∀ (records : List DailyRecord) (dips_result : DipDetectionResult)
        (baselines : Baselines) (c : AnalysisAssumptions)
        (factors : List FactorConfig) (th : AttributionThresholds),
      c.min_history_days ≤ records.length → dips_result.all = [] →
      compute_pareto_attribution records dips_result baselines c factors th =
        { factors_ranked := [], dominant_key := none,
          meta := { reason := some "no_dips", dip_count := some 0 } }) ∧
    (∀ (records : List DailyRecord) (b : BaselineStats) (a : AnalysisAssumptions)
        (th : DipThresholds) (dip_count : ℤ),
      records.length < a.min_history_days →
      detect_recovery_dips records b a th = [] ∧
      is_stable_recovery records b dip_count a =
        { stable := false, reason := some "insufficient_history" }) := by
  refine ⟨?_, ?_, ?_, ?_, ?_⟩
  · intro sqrtQ records key w hw
    unfold compute_individual_baselines
    rw [if_pos hw]
  · intro sqrtQ records key w hw hne hkey
    unfold compute_individual_baselines
    rw [if_neg (by omega)]
    exact statsFromWindow_invalid_key sqrtQ _ key hkey
      (baselineWindow_ne_nil records w hne hw)
  · intro records dips_result baselines c factors th hlen
    unfold compute_pareto_attribution
    rw [if_pos hlen]
  · intro records dips_result baselines c factors th hlen hdips
    unfold compute_pareto_attribution
    rw [if_neg (by omega)]
    simp [hdips]
  · intro records b a th dip_count hlen
    constructor
    · unfold detect_recovery_dips
      rw [if_pos hlen]
    · unfold is_stable_recovery
      rw [if_pos hlen]

/-- Witness for C7: each failure channel exercised at a concrete input. -/
theorem error_channels_separate_witness :
    compute_individual_baselines (fun q => q) [] ("recovery_value") 0 =
      Except.error ("days_window must be > 0") ∧
    compute_individual_baselines (fun q => q) [{ date := 0 }] ("bogus") 1 =
      Except.error ("Unknown metric key: " ++ "bogus") ∧
    compute_pareto_attribution [] { large := [], persistent := [], all := [] }
        (fun _ => none) {} DEFAULT_DRIVERS {} =
      { factors_ranked := [], dominant_key := none,
        meta := { reason := some "insufficient_history", history_days := some 0 } } ∧
    compute_pareto_attribution [] { large := [], persistent := [], all := [] }
        (fun _ => none) { min_history_days := 0 } DEFAULT_DRIVERS {} =
      { factors_ranked := [], dominant_key := none,
        meta := { reason := some "no_dips", dip_count := some 0 } } ∧
    detect_recovery_dips [] exampleDipBaseline {} {} = [] ∧
    is_stable_recovery [] exampleDipBaseline 0 {} =
      { stable := false, reason := some "insufficient_history" } := by
  refine ⟨?_, ?_, ?_, ?_, ?_, ?_⟩
  · exact error_channels_separate.1 (fun q => q) [] ("recovery_value") 0 (by norm_num)
  · exact error_channels_separate.2.1 (fun q => q) [{ date := 0 }] ("bogus") 1
      (by norm_num) (by simp) (by decide)
  · exact error_channels_separate.2.2.1 [] { large := [], persistent := [], all := [] }
      (fun _ => none) {} DEFAULT_DRIVERS {} (by decide)
  · exact error_channels_separate.2.2.2.1 [] { large := [], persistent := [], all := [] }
      (fun _ => none) { min_history_days := 0 } DEFAULT_DRIVERS {} (by decide) rfl
  · exact (error_channels_separate.2.2.2.2 [] exampleDipBaseline {} {} 0 (by decide)).1
  · exact (error_channels_separate.2.2.2.2 [] exampleDipBaseline {} {} 0 (by decide)).2

/-! ### Helper lemmas: the direction filter -/

theorem bestFieldZStep_abs (r : DailyRecord) (baselines : Baselines)
    (best : Option ℚ × ℚ) (field : String)
    (hbest : ∀ z, best.1 = some z → best.2 = |z|) :
    ∀ z, (bestFieldZStep r baselines best field).1 = some z →
      (bestFieldZStep r baselines best field).2 = |z| := by
  intro z hz
  have hstep : bestFieldZStep r baselines best field = best ∨
      ∃ z', bestFieldZStep r baselines best field =
        (if |z'| > best.2 then (some z', |z'|) else best) := by
    unfold bestFieldZStep
    cases baselines field with
    | none => exact Or.inl rfl
    | some b =>
      cases get_field_value r field with
      | none => exact Or.inl rfl
      | some val =>
        have hinner : ∀ o : Option ℚ,
            (match o with
              | none => best
              | some z => if |z| > best.2 then (some z, |z|) else best) = best ∨
            ∃ z', (match o with
              | none => best
              | some z => if |z| > best.2 then (some z, |z|) else best) =
              (if |z'| > best.2 then (some z', |z'|) else best) := by
          intro o
          cases o with
          | none => exact Or.inl rfl
          | some z' => exact Or.inr ⟨z', rfl⟩
        exact hinner (z_score val b)
  rcases hstep with hstep | ⟨z', hstep⟩
  · rw [hstep] at hz ⊢
    exact hbest z hz
  · rw [hstep] at hz ⊢
    by_cases hgt : |z'| > best.2
    · rw [if_pos hgt] at hz ⊢
      cases hz
      rfl
    · rw [if_neg hgt] at hz ⊢
      exact hbest z hz

theorem bestFieldZ_abs (r : DailyRecord) (factor : FactorConfig)
    (baselines : Baselines) :
    ∀ z, (bestFieldZ r factor baselines).1 = some z →
      (bestFieldZ r factor baselines).2 = |z| := by
  unfold bestFieldZ
  suffices h : ∀ (l : List String) (init : Option ℚ × ℚ),
      (∀ z, init.1 = some z → init.2 = |z|) →
      ∀ z, (l.foldl (bestFieldZStep r baselines) init).1 = some z →
        (l.foldl (bestFieldZStep r baselines) init).2 = |z| by
    exact h factor.fields (none, 0) (by intro z hz; cases hz)
  intro l
  induction l with
  | nil => intro init h; exact h
  | cons f fs ih =>
    intro init h
    rw [List.foldl_cons]
    exact ih _ (bestFieldZStep_abs r baselines init f h)

theorem recByDate_mem (records : List DailyRecord) (d : Day) (r : DailyRecord)
    (h : recByDate records d = some r) : r ∈ records := by
  unfold recByDate at h
  exact List.mem_reverse.1 (List.mem_of_find?_eq_some h)

/-- C1: a day counts as abnormal for a factor only when its strongest-|z| field
deviates in the hypothesized harmful direction — `exercise` only with signed
z strictly positive, `sleep` and `nutrition` only with signed z strictly
negative; consequently, when every deviation at or above `abnormal_abs_z` is in
the protective direction, no factor contributes and
`compute_pareto_attribution` returns the empty result with
`meta.reason = "no_explanatory_signal"`. -/
theorem pareto_direction_filter_no_signal (records : List DailyRecord)
    (dips_result : DipDetectionResult) (baselines : Baselines)
    (c : AnalysisAssumptions) (th : AttributionThresholds) :
    (∀ (r : DailyRecord) (factor : FactorConfig),
      (is_factor_abnormal r factor baselines th).1 = true →
        ∃ z, (bestFieldZ r factor baselines).1 = some z ∧
          (factor.key = "exercise" → 0 < z) ∧
          (factor.key = "sleep" ∨ factor.key = "nutrition" → z < 0)) ∧
    (c.min_history_days ≤ records.length → dips_result.all ≠ [] →
      (∀ r ∈ records, ∀ factor ∈ DEFAULT_DRIVERS, ∀ z,
        (bestFieldZ r factor baselines).1 = some z → th.abnormal_abs_z ≤ |z| →
        (factor.key = "exercise" → z ≤ 0) ∧ (factor.key ≠ "exercise" → 0 ≤ z)) →
      compute_pareto_attribution records dips_result baselines c DEFAULT_DRIVERS th =
        { factors_ranked := [], dominant_key := none,
          meta := { reason := some "no_explanatory_signal",
                    dip_count := some dips_result.all.length,
                    max_lag_days := some c.max_lag_days } }) := by
  constructor
  · intro r factor h
    unfold is_factor_abnormal at h
    rcases hb : bestFieldZ r factor baselines with ⟨_ | z, a⟩
    · simp only [hb] at h
      cases h
    · simp only [hb] at h
      refine ⟨z, by simp [hb], ?_, ?_⟩
      · intro hex
        rw [if_pos hex] at h
        by_cases hz : z ≤ 0
        · rw [if_pos hz] at h
          cases h
        · exact lt_of_not_le hz
      · intro hsn
        have hex : ¬ factor.key = "exercise" := by
          rcases hsn with h' | h' <;> rw [h'] <;> decide
        rw [if_neg hex, if_pos hsn] at h
        by_cases hz : z ≥ 0
        · rw [if_pos hz] at h
          cases h
        · exact lt_of_not_le hz
  · intro hlen hdips hprot
    have habn : ∀ r ∈ records, ∀ factor ∈ DEFAULT_DRIVERS,
        (is_factor_abnormal r factor baselines th).1 = false := by
      intro r hr factor hf
      have hfmem := hf
      unfold is_factor_abnormal
      rcases hb : bestFieldZ r factor baselines with ⟨_ | z, a⟩
      · simp only [hb]
      · simp only [hb]
        have ha : a = |z| := by
          have h2 := bestFieldZ_abs r factor baselines z
          rw [hb] at h2
          exact h2 rfl
        have hdir := hprot r hr factor hf z (by rw [hb])
        subst ha
        simp only [DEFAULT_DRIVERS, List.mem_cons, List.not_mem_nil, or_false] at hfmem
        rcases hfmem with rfl | rfl | rfl
        · rw [if_neg (by decide), if_pos (Or.inl rfl)]
          by_cases hz : z ≥ 0
          · rw [if_pos hz]
          · rw [if_neg hz]
            show decide (|z| ≥ th.abnormal_abs_z) = false
            simp only [ge_iff_le, decide_eq_false_iff_not]
            intro hth
            exact absurd ((hdir hth).2 (by decide)) hz
        · rw [if_pos rfl]
          by_cases hz : z ≤ 0
          · rw [if_pos hz]
          · rw [if_neg hz]
            show decide (|z| ≥ th.abnormal_abs_z) = false
            simp only [ge_iff_le, decide_eq_false_iff_not]
            intro hth
            exact absurd ((hdir hth).1 rfl) hz
        · rw [if_neg (by decide), if_pos (Or.inr rfl)]
          by_cases hz : z ≥ 0
          · rw [if_pos hz]
          · rw [if_neg hz]
            show decide (|z| ≥ th.abnormal_abs_z) = false
            simp only [ge_iff_le, decide_eq_false_iff_not]
            intro hth
            exact absurd ((hdir hth).2 (by decide)) hz
    have hsum : (DEFAULT_DRIVERS.map (fun f =>
        factorRawScore records dips_result.all f baselines th c.max_lag_days)).sum = 0 := by
      apply List.sum_eq_zero
      intro x hx
      rcases List.mem_map.1 hx with ⟨f, hf, rfl⟩
      unfold factorRawScore
      apply List.sum_eq_zero
      intro y hy
      rcases List.mem_map.1 hy with ⟨dip, _, rfl⟩
      have hcontrib : dipFactorContributed records dip f baselines th
          c.max_lag_days = false := by
        unfold dipFactorContributed
        rw [List.any_eq_false]
        intro lag _
        cases hrec : recByDate records (dip.date - (lag : ℤ)) with
        | none => simp
        | some rec =>
          simp only [hrec]
          simp [habn rec (recByDate_mem records _ rec hrec) f hf]
      simp [hcontrib]
    unfold compute_pareto_attribution
    rw [if_neg (by omega),
      if_neg (by exact fun h => hdips (List.length_eq_zero.1 h)), if_pos hsum]

/-- Witness for C1: gates passed and one dip, but no baselines at all — no
deviation above threshold exists in any direction, nothing contributes, and the
attributor reports `no_explanatory_signal`. -/
theorem pareto_direction_filter_no_signal_witness :
    compute_pareto_attribution exampleDipRecords
        { large := [], persistent := [exampleDip 3], all := [exampleDip 3] }
        (fun _ => none) exampleDipAssumptions DEFAULT_DRIVERS {} =
      { factors_ranked := [], dominant_key := none,
        meta := { reason := some "no_explanatory_signal", dip_count := some 1,
                  max_lag_days := some 3 } } := by
  have h := (pareto_direction_filter_no_signal exampleDipRecords
      { large := [], persistent := [exampleDip 3], all := [exampleDip 3] }
      (fun _ => none) exampleDipAssumptions {}).2 (by decide) (by simp) ?hpro
  · simpa using h
  case hpro =>
    intro r _ factor _ z hz
    have hfold : ∀ (l : List String) (init : Option ℚ × ℚ),
        l.foldl (bestFieldZStep r (fun _ => none)) init = init := by
      intro l
      induction l with
      | nil => intro init; rfl
      | cons f fs ih =>
        intro init
        rw [List.foldl_cons,
          show bestFieldZStep r (fun _ => none) init f = init from rfl]
        exact ih init
    unfold bestFieldZ at hz
    rw [hfold] at hz
    cases hz

/-! ### Helper lemmas: normalization and ranking -/

theorem foldl_nonneg {α : Type _} (f : ℚ → α → ℚ)
    (hf : ∀ b x, 0 ≤ b → 0 ≤ f b x) :
    ∀ (l : List α) (init : ℚ), 0 ≤ init → 0 ≤ l.foldl f init
  | [], _, h => h
  | x :: xs, init, h => by
    rw [List.foldl_cons]
    exact foldl_nonneg f hf xs (f init x) (hf init x h)

theorem dipFactorBestStrength_nonneg (records : List DailyRecord) (dip : DipEvent)
    (factor : FactorConfig) (baselines : Baselines) (th : AttributionThresholds)
    (maxLag : ℕ) : 0 ≤ dipFactorBestStrength records dip factor baselines th maxLag := by
  unfold dipFactorBestStrength
  refine foldl_nonneg _ ?_ _ 0 le_rfl
  intro b x hb
  dsimp only
  cases recByDate records (dip.date - (x : ℤ)) with
  | none => exact hb
  | some rec =>
    show 0 ≤ if (is_factor_abnormal rec factor baselines th).1 then
        (if (is_factor_abnormal rec factor baselines th).2 > b then
          (is_factor_abnormal rec factor baselines th).2 else b)
      else b
    split_ifs with h1 h2
    · exact le_of_lt (lt_of_le_of_lt hb h2)
    · exact hb
    · exact hb

theorem dip_weight_nonneg (dip : DipEvent) : 0 ≤ dip_weight dip := by
  unfold dip_weight
  split <;> norm_num

theorem factorRawScore_nonneg (records : List DailyRecord) (dips : List DipEvent)
    (factor : FactorConfig) (baselines : Baselines) (th : AttributionThresholds)
    (maxLag : ℕ) : 0 ≤ factorRawScore records dips factor baselines th maxLag := by
  unfold factorRawScore
  apply List.sum_nonneg
  intro x hx
  rcases List.mem_map.1 hx with ⟨dip, _, rfl⟩
  split
  · exact mul_nonneg (dip_weight_nonneg dip)
      (dipFactorBestStrength_nonneg records dip factor baselines th maxLag)
  · exact le_rfl

theorem applyNoisePenalty_nonneg (records : List DailyRecord) (dips : List DipEvent)
    (factor : FactorConfig) (baselines : Baselines) (c : AnalysisAssumptions)
    (th : AttributionThresholds) (score : ℚ) (h : 0 ≤ score) :
    0 ≤ applyNoisePenalty records dips factor baselines c th score := by
  unfold applyNoisePenalty
  split_ifs
  · exact h
  · refine mul_nonneg h ?_
    have hmin : min 1 ((noiseShare records dips factor baselines th c.max_lag_days -
        c.max_noise_share) / (1 - c.max_noise_share)) ≤ 1 := min_le_left _ _
    linarith
  · exact h

theorem factorScoreAfterNoise_nonneg (records : List DailyRecord)
    (dips : List DipEvent) (factor : FactorConfig) (baselines : Baselines)
    (c : AnalysisAssumptions) (th : AttributionThresholds) :
    0 ≤ factorScoreAfterNoise records dips factor baselines c th :=
  applyNoisePenalty_nonneg records dips factor baselines c th _
    (factorRawScore_nonneg records dips factor baselines th c.max_lag_days)

theorem factorFinalScore_nonneg (records : List DailyRecord) (dips : List DipEvent)
    (factor : FactorConfig) (baselines : Baselines) (c : AnalysisAssumptions)
    (th : AttributionThresholds) :
    0 ≤ factorFinalScore records dips factor baselines c th := by
  unfold factorFinalScore
  split
  · exact factorScoreAfterNoise_nonneg records dips factor baselines c th
  · exact mul_nonneg (factorScoreAfterNoise_nonneg records dips factor baselines c th)
      (by norm_num)

theorem factorFinalScore_half_le (records : List DailyRecord) (dips : List DipEvent)
    (factor : FactorConfig) (baselines : Baselines) (c : AnalysisAssumptions)
    (th : AttributionThresholds) :
    factorScoreAfterNoise records dips factor baselines c th * (1 / 2) ≤
      factorFinalScore records dips factor baselines c th := by
  unfold factorFinalScore
  split
  · have h := factorScoreAfterNoise_nonneg records dips factor baselines c th
    linarith
  · exact le_rfl

theorem factorScores_map_score (records : List DailyRecord) (dips : List DipEvent)
    (baselines : Baselines) (c : AnalysisAssumptions) (factors : List FactorConfig)
    (th : AttributionThresholds) :
    (factorScores records dips baselines c factors th).map (fun s => s.score) =
      factors.map (fun f => factorFinalScore records dips f baselines c th) := by
  unfold factorScores
  rw [List.map_map]
  rfl

theorem paretoTotal_pos (records : List DailyRecord) (dips : List DipEvent)
    (baselines : Baselines) (c : AnalysisAssumptions) (factors : List FactorConfig)
    (th : AttributionThresholds)
    (h4 : 0 < (factors.map (fun f =>
      factorScoreAfterNoise records dips f baselines c th)).sum) :
    0 < ((factorScores records dips baselines c factors th).map
      (fun s => s.score)).sum := by
  rw [factorScores_map_score]
  have hhalf : (factors.map (fun f =>
      factorScoreAfterNoise records dips f baselines c th * (1 / 2))).sum ≤
      (factors.map (fun f => factorFinalScore records dips f baselines c th)).sum :=
    List.sum_le_sum (fun f _ => factorFinalScore_half_le records dips f baselines c th)
  rw [List.sum_map_mul_right] at hhalf
  linarith

theorem buildRanked_percent_sum_aux (total : ℚ) :
    ∀ L : List FactorScore, (∀ s ∈ L, 0 ≤ s.score) →
      ((buildRanked L total).map (fun fa => fa.percent)).sum =
        (L.map (fun s => s.score)).sum / total * 100
  | [], _ => by simp [buildRanked]
  | s :: rest, h => by
    have hrest := buildRanked_percent_sum_aux total rest
      (fun x hx => h x (List.mem_cons_of_mem s hx))
    by_cases hs : s.score ≤ 0
    · have hs0 : s.score = 0 := le_antisymm hs (h s (List.mem_cons_self s rest))
      unfold buildRanked at hrest ⊢
      simp only [List.filterMap_cons, if_pos hs]
      rw [hrest, List.map_cons, List.sum_cons, hs0, zero_add]
    · unfold buildRanked at hrest ⊢
      simp only [List.filterMap_cons, if_neg hs]
      rw [List.map_cons, List.sum_cons, hrest, List.map_cons, List.sum_cons]
      dsimp only
      ring

/-- C2: when `compute_pareto_attribution` reaches the normalize-and-rank stage
(all gates passed), each ranked factor's percent equals its (post-penalty)
score divided by the total score times 100; the percents of the factors with
positive score — the ranked list before truncation — sum to 100; the returned
list is sorted descending by score and is the truncation of that list to
`max_explanatory_factors`; and `dominant_key` is governed by `paretoDominant`:
it is the top factor's key exactly when the list is non-empty and
`top.percent / 100` reaches `min_effect_size`. -/
theorem pareto_normalize_rank (records : List DailyRecord)
    (dips_result : DipDetectionResult) (baselines : Baselines)
    (c : AnalysisAssumptions) (factors : List FactorConfig)
    (th : AttributionThresholds)
    (h1 : c.min_history_days ≤ records.length)
    (h2 : dips_result.all ≠ [])
    (h3 : (factors.map (fun f => factorRawScore records dips_result.all f baselines
      th c.max_lag_days)).sum ≠ 0)
    (h4 : 0 < (factors.map (fun f => factorScoreAfterNoise records dips_result.all f
      baselines c th)).sum) :
    (compute_pareto_attribution records dips_result baselines c factors
        th).factors_ranked =
      (buildRanked
        (rankFactors (factorScores records dips_result.all baselines c factors th))
        ((factorScores records dips_result.all baselines c factors th).map
          (fun s => s.score)).sum).take c.max_explanatory_factors ∧
    (∀ fa ∈ (compute_pareto_attribution records dips_result baselines c factors
        th).factors_ranked,
      fa.percent = fa.raw_score /
        ((factorScores records dips_result.all baselines c factors th).map
          (fun s => s.score)).sum * 100) ∧
    ((buildRanked
        (rankFactors (factorScores records dips_result.all baselines c factors th))
        ((factorScores records dips_result.all baselines c factors th).map
          (fun s => s.score)).sum).map (fun fa => fa.percent)).sum = 100 ∧
    (compute_pareto_attribution records dips_result baselines c factors
        th).factors_ranked.Pairwise (fun a b => b.raw_score ≤ a.raw_score) ∧
    (compute_pareto_attribution records dips_result baselines c factors
        th).factors_ranked.length ≤ c.max_explanatory_factors ∧
    (compute_pareto_attribution records dips_result baselines c factors
        th).dominant_key =
      paretoDominant
        (compute_pareto_attribution records dips_result baselines c factors
          th).factors_ranked c := by
  have hres : compute_pareto_attribution records dips_result baselines c factors th =
      { factors_ranked := paretoRanked records dips_result.all baselines c factors th
        dominant_key :=
          paretoDominant (paretoRanked records dips_result.all baselines c factors th) c
        meta := { dip_count := some dips_result.all.length,
                  max_lag_days := some c.max_lag_days } } := by
    unfold compute_pareto_attribution
    rw [if_neg (by omega), if_neg (by exact fun h => h2 (List.length_eq_zero.1 h)),
      if_neg h3, if_neg (by exact not_le.2 h4)]
  have htotpos := paretoTotal_pos records dips_result.all baselines c factors th h4
  have hnn : ∀ s ∈ rankFactors (factorScores records dips_result.all baselines c
      factors th), 0 ≤ s.score := by
    intro s hs
    have hmem : s ∈ factorScores records dips_result.all baselines c factors th :=
      (sortLe_perm _ _).mem_iff.1 hs
    unfold factorScores at hmem
    rcases List.mem_map.1 hmem with ⟨f, _, rfl⟩
    exact factorFinalScore_nonneg records dips_result.all f baselines c th
  have hsum_rank : ((rankFactors (factorScores records dips_result.all baselines c
      factors th)).map (fun s => s.score)).sum =
      ((factorScores records dips_result.all baselines c factors th).map
        (fun s => s.score)).sum :=
    ((sortLe_perm (fun a b : FactorScore => decide (b.score ≤ a.score))
      (factorScores records dips_result.all baselines c factors th)).map
      (fun s : FactorScore => s.score)).sum_eq
  refine ⟨?_, ?_, ?_, ?_, ?_, ?_⟩
  · rw [hres]
    rfl
  · intro fa hfa
    rw [hres] at hfa
    have hfa' : fa ∈ buildRanked
        (rankFactors (factorScores records dips_result.all baselines c factors th))
        ((factorScores records dips_result.all baselines c factors th).map
          (fun s => s.score)).sum :=
      (List.take_sublist _ _).subset hfa
    unfold buildRanked at hfa'
    rcases List.mem_filterMap.1 hfa' with ⟨s, _, hbuild⟩
    split at hbuild
    · cases hbuild
    · cases hbuild
      rfl
  · rw [buildRanked_percent_sum_aux _ _ hnn, hsum_rank,
      div_self (ne_of_gt htotpos)]
    norm_num
  · have htot : ∀ a b : FactorScore,
        decide (b.score ≤ a.score) = true ∨ decide (a.score ≤ b.score) = true := by
      intro a b
      rcases le_total b.score a.score with h | h
      · exact Or.inl (by simpa using h)
      · exact Or.inr (by simpa using h)
    have htrans : ∀ a b d : FactorScore, decide (b.score ≤ a.score) = true →
        decide (d.score ≤ b.score) = true → decide (d.score ≤ a.score) = true := by
      intro a b d hab hbd
      simp only [decide_eq_true_eq] at *
      exact le_trans hbd hab
    have hrnk := sortLe_pairwise _ htot htrans
      (factorScores records dips_result.all baselines c factors th)
    have hr2 : (rankFactors (factorScores records dips_result.all baselines c
        factors th)).Pairwise (fun a b => b.score ≤ a.score) :=
      hrnk.imp (fun h => by simpa using h)
    have hpre : (buildRanked
        (rankFactors (factorScores records dips_result.all baselines c factors th))
        ((factorScores records dips_result.all baselines c factors th).map
          (fun s => s.score)).sum).Pairwise
        (fun x y => y.raw_score ≤ x.raw_score) := by
      unfold buildRanked
      rw [List.pairwise_filterMap]
      refine hr2.imp ?_
      intro a b hab fa hfa fb hfb
      split at hfa
      · cases hfa
      · split at hfb
        · cases hfb
        · cases hfa
          cases hfb
          exact hab
    rw [hres]
    exact hpre.sublist (List.take_sublist _ _)
  · rw [hres]
    exact List.length_take_le _ _
  · rw [hres]

/-- Witness for C2: one record with an abnormal exercise load and one dip pass
every gate, and the ranked percentages sum to 100. -/
theorem pareto_normalize_rank_witness :
    ((buildRanked
        (rankFactors (factorScores exampleParetoRecords [exampleDip 1]
          exampleParetoBaselines exampleParetoConstants DEFAULT_DRIVERS {}))
        ((factorScores exampleParetoRecords [exampleDip 1] exampleParetoBaselines
          exampleParetoConstants DEFAULT_DRIVERS {}).map (fun s => s.score)).sum).map
      (fun fa => fa.percent)).sum = 100 :=
  (pareto_normalize_rank exampleParetoRecords
    { large := [], persistent := [exampleDip 1], all := [exampleDip 1] }
    exampleParetoBaselines exampleParetoConstants DEFAULT_DRIVERS {}
    (by decide) (by simp)
    (by
      simp only [factorRawScore, dipFactorContributed, dipFactorBestStrength,
        is_factor_abnormal, bestFieldZ, bestFieldZStep, get_field_value, z_score,
        recByDate, dip_weight, exampleParetoRecords, exampleParetoBaselines,
        exampleParetoConstants, exampleDip, DEFAULT_DRIVERS, String.reduceEq,
        reduceIte, List.foldl_cons, List.foldl_nil, List.range_succ,
        List.range_zero, List.map_cons, List.map_nil, List.sum_cons, List.sum_nil,
        List.reverse_cons, List.reverse_nil, List.nil_append, List.find?,
        List.any_cons, List.any_nil, List.append_nil]
      norm_num)
    (by
      simp only [factorScoreAfterNoise, applyNoisePenalty, noiseShare,
        factorTotalAbnormal, factorAbnormalInContext, inDipContext,
        factorRawScore, dipFactorContributed, dipFactorBestStrength,
        is_factor_abnormal, bestFieldZ, bestFieldZStep, get_field_value, z_score,
        recByDate, dip_weight, exampleParetoRecords, exampleParetoBaselines,
        exampleParetoConstants, exampleDip, DEFAULT_DRIVERS, String.reduceEq,
        reduceIte, List.foldl_cons, List.foldl_nil, List.range_succ,
        List.range_zero, List.map_cons, List.map_nil, List.sum_cons, List.sum_nil,
        List.reverse_cons, List.reverse_nil, List.nil_append, List.find?,
        List.any_cons, List.any_nil, List.append_nil, List.countP_cons,
        List.countP_nil]
      norm_num)).2.2.1

end PhysioLens
